import Mathlib

/-! STM32F4 flash backend (`Src/SWDLib/src/stm32f4.c`)

A shallow embedding of the device-specific flash driver: the probe that
classifies the identification code and registers regions, the sector erase,
the stub based write path and the option-byte subsystem.

The debug link is an external collaborator.  It is embedded as an `Oracle`
that answers each access (the n-th 32-bit read, the n-th connection-error
query, the n-th stub run), and every access is logged, in program order, in
the `trace` of the `World`.  Theorems quantify over all oracles, hence over
every behaviour of the attached device.

Machine integers are naturals with explicit truncation (`u8`, `u16`, `u32`).
Loops that poll the hardware take a fuel argument and yield `none` when the
fuel is exhausted.
-/

namespace STM32F4

/-! ## Machine integers -/

/-- Truncation to `uint8_t`. -/
def u8 (n : Nat) : Nat := n % 2 ^ 8

/-- Truncation to `uint16_t`. -/
def u16 (n : Nat) : Nat := n % 2 ^ 16

/-- Truncation to `uint32_t`. -/
def u32 (n : Nat) : Nat := n % 2 ^ 32

/-- Bitwise complement of a 32-bit word: the C expression `~m` converted to `uint32_t`. -/
def not32 (m : Nat) : Nat := 0xFFFFFFFF ^^^ u32 m

/-! ## Constants of `target_stm32f4.h`

The header is not part of the sources.  Register addresses, bit masks, key
words and the stub blobs are therefore parameters of the embedding. -/

/-- The register addresses, bit masks, key words and stub blobs that
`stm32f4.c` takes from `target_stm32f4.h`. -/
structure Consts where
  FLASH_KEYR : Nat
  FLASH_OPTKEYR : Nat
  FLASH_SR : Nat
  FLASH_CR : Nat
  FLASH_OPTCR : Nat
  FLASH_CR_SER : Nat
  FLASH_CR_MER : Nat
  FLASH_CR_STRT : Nat
  FLASH_CR_EOPIE : Nat
  FLASH_CR_ERRIE : Nat
  FLASH_CR_LOCK : Nat
  FLASH_SR_BSY : Nat
  FLASH_OPTCR_OPTLOCK : Nat
  FLASH_OPTCR_OPTSTRT : Nat
  KEY1 : Nat
  KEY2 : Nat
  OPTKEY1 : Nat
  OPTKEY2 : Nat
  SR_ERROR_MASK : Nat
  SR_EOP : Nat
  DBGMCU_IDCODE : Nat
  ARM_CPUID : Nat
  AXIM_BASE : Nat
  ITCM_BASE : Nat
  SRAM_BASE : Nat
  STUB_BUFFER_BASE : Nat
  stm32f4_flash_write_x32_stub : List Nat
  stm32f4_flash_write_x8_stub : List Nat

/-- Sample values for the constants: the flash register map and bit positions
of RM0090, the key words of PM0081, the debug and core identification
registers; the stub blobs are left empty.  They serve only to instantiate
theorems on concrete inputs. -/
def refConsts : Consts where
  FLASH_KEYR := 0x40023C04
  FLASH_OPTKEYR := 0x40023C08
  FLASH_SR := 0x40023C0C
  FLASH_CR := 0x40023C10
  FLASH_OPTCR := 0x40023C14
  FLASH_CR_SER := 0x2
  FLASH_CR_MER := 0x4
  FLASH_CR_STRT := 0x10000
  FLASH_CR_EOPIE := 0x1000000
  FLASH_CR_ERRIE := 0x2000000
  FLASH_CR_LOCK := 0x80000000
  FLASH_SR_BSY := 0x10000
  FLASH_OPTCR_OPTLOCK := 0x1
  FLASH_OPTCR_OPTSTRT := 0x2
  KEY1 := 0x45670123
  KEY2 := 0xCDEF89AB
  OPTKEY1 := 0x08192A3B
  OPTKEY2 := 0x4C5D6E7F
  SR_ERROR_MASK := 0xF2
  SR_EOP := 0x01
  DBGMCU_IDCODE := 0xE0042000
  ARM_CPUID := 0xE000ED00
  AXIM_BASE := 0x8000000
  ITCM_BASE := 0x0200000
  SRAM_BASE := 0x20000000
  STUB_BUFFER_BASE := 0x20000030
  stm32f4_flash_write_x32_stub := []
  stm32f4_flash_write_x8_stub := []

/-! ## The debug link -/

/-- One access to the attached device, with the value it produced. -/
inductive Event where
  | read32 (addr val : Nat)
  | write32 (addr val : Nat)
  | memWrite (dest : Nat) (src : List Nat) (len : Nat)
  | checkError (err : Bool)
  | runStub (loadaddr r0 r1 r2 r3 : Nat) (ret : Int)
  | printf (text : String)
  deriving DecidableEq, Repr

/-- The answers of the attached device: `mem32 n a` is what the n-th call of
`target_mem_read32` returns when it reads address `a`, `error n` what the n-th
call of `target_check_error` returns, `stub n` the exit code of the n-th
`cortexm_run_stub`. -/
structure Oracle where
  mem32 : Nat → Nat → Nat
  error : Nat → Bool
  stub : Nat → Int

/-- Progress of the session: how many answers were consumed, and the log of
all accesses in program order. -/
structure World where
  nread : Nat
  nerr : Nat
  nstub : Nat
  trace : List Event
  deriving DecidableEq, Repr

/-- A session on which nothing has happened yet. -/
def World.init : World := ⟨0, 0, 0, []⟩

/-- The link primitive `target_mem_read32(t, addr)`: the answer of the device, as a `uint32_t`.
The link primitives log their arguments as the driver passes them. -/
def target_mem_read32 (O : Oracle) (w : World) (addr : Nat) : Nat × World :=
  let v := u32 (O.mem32 w.nread addr)
  (v, { w with nread := w.nread + 1, trace := w.trace ++ [Event.read32 addr v] })

/-- The link primitive `target_mem_write32(t, addr, value)`. -/
def target_mem_write32 (w : World) (addr value : Nat) : World :=
  { w with trace := w.trace ++ [Event.write32 addr value] }

/-- The link primitive `target_mem_write(t, dest, src, len)`. -/
def target_mem_write (w : World) (dest : Nat) (src : List Nat) (len : Nat) : World :=
  { w with trace := w.trace ++ [Event.memWrite dest src len] }

/-- The link primitive `target_check_error(t)`. -/
def target_check_error (O : Oracle) (w : World) : Bool × World :=
  let e := O.error w.nerr
  (e, { w with nerr := w.nerr + 1, trace := w.trace ++ [Event.checkError e] })

/-- The remote execution `cortexm_run_stub(t, loadaddr, r0, r1, r2, r3)`. -/
def cortexm_run_stub (O : Oracle) (w : World) (loadaddr r0 r1 r2 r3 : Nat) : Int × World :=
  let r := O.stub w.nstub
  (r, { w with nstub := w.nstub + 1,
               trace := w.trace ++ [Event.runStub loadaddr r0 r1 r2 r3 r] })

/-- The output `tc_printf(t, ...)`, with the formatted text. -/
def tc_printf (w : World) (text : String) : World :=
  { w with trace := w.trace ++ [Event.printf text] }

/-- The register writes of a log, in order, as (address, value). -/
def writesOf : List Event → List (Nat × Nat)
  | [] => []
  | Event.write32 a v :: es => (a, v) :: writesOf es
  | _ :: es => writesOf es

/-! ## Device record -/

/-- Identity of an erase or write handler stored in a region descriptor. -/
inductive Handler where
  | stm32f4_flash_erase
  | stm32f4_flash_write
  | foreign (tag : Nat)
  deriving DecidableEq, Repr

/-- The descriptor `struct stm32f4_flash`: the generic `struct target_flash`
fields the driver sets, followed by `base_sector` and `psize`. -/
structure stm32f4_flash where
  start : Nat
  length : Nat
  blocksize : Nat
  erase : Handler
  write : Handler
  align : Nat
  erased : Nat
  base_sector : Nat
  psize : Nat
  deriving DecidableEq, Repr

/-- A RAM region registered with `target_add_ram`: start and length. -/
structure target_ram where
  start : Nat
  length : Nat
  deriving DecidableEq, Repr

/-- The driver labels `stm32f4_driver_str`, `stm32f2_driver_str`,
`stm32f7_driver_str`; the record may also carry a label set by other code. -/
inductive DriverStr where
  | stm32f4_driver_str
  | stm32f2_driver_str
  | stm32f7_driver_str
  | foreign (tag : Nat)
  deriving DecidableEq, Repr

/-- The command tables a record can carry: this driver's `stm32f4_cmd_list`,
or a table of other code. -/
inductive CmdTable where
  | stm32f4_cmd_list
  | foreign (tag : Nat)
  deriving DecidableEq, Repr

/-- A command table registered with `target_add_commands`: which table and
under which label. -/
structure target_command where
  table : CmdTable
  label : String
  deriving DecidableEq, Repr

/-- The target device record, as far as this driver reads or writes it.
Lists are in insertion order. -/
structure target where
  idcode : Nat
  driver : DriverStr
  flash : List stm32f4_flash
  ram : List target_ram
  commands : List target_command
  deriving DecidableEq, Repr

/-- Modelled from the spec: `target_add_flash` of the generic target layer,
which is not part of the sources; it appends the descriptor to the record's
flash list (the lists are append-only and in insertion order). -/
def target_add_flash (t : target) (f : stm32f4_flash) : target :=
  { t with flash := t.flash ++ [f] }

/-- Modelled from the spec: `target_add_ram` of the generic target layer,
which is not part of the sources; it appends a RAM region to the record. -/
def target_add_ram (t : target) (start len : Nat) : target :=
  { t with ram := t.ram ++ [⟨start, len⟩] }

/-- Modelled from the spec: `target_add_commands` of the generic target layer,
which is not part of the sources; it registers a command table under a label. -/
def target_add_commands (t : target) (table : CmdTable) (label : String) : target :=
  { t with commands := t.commands ++ [⟨table, label⟩] }

/-! ## Identification codes

The enumeration lives in the missing header; the source documents the value
of every code in the table above `optcr_mask` (column `ID hex`). -/

/-- Modelled from the spec: code of the F20x line (table row `F20x ... 411`). -/
def ID_STM32F20X : Nat := 0x411
/-- Modelled from the spec: code of the F40x line (table row `F40x ... 413`). -/
def ID_STM32F40X : Nat := 0x413
/-- Modelled from the spec: code of the F42x line (table row `F42x ... 419`). -/
def ID_STM32F42X : Nat := 0x419
/-- Modelled from the spec: code of the F446 (table row `F446 ... 421`). -/
def ID_STM32F446 : Nat := 0x421
/-- Modelled from the spec: code of the F401 B/C (table row `F401BC ... 423`). -/
def ID_STM32F401C : Nat := 0x423
/-- Modelled from the spec: code of the F411 (table row `F411 ... 431`). -/
def ID_STM32F411 : Nat := 0x431
/-- Modelled from the spec: code of the F401 D/E (table row `F401DE ... 433`). -/
def ID_STM32F401E : Nat := 0x433
/-- Modelled from the spec: code of the F46x line (table row `F46x ... 434`). -/
def ID_STM32F46X : Nat := 0x434
/-- Modelled from the spec: code of the F412 (table row `F412 ... 441`). -/
def ID_STM32F412 : Nat := 0x441
/-- Modelled from the spec: code of the F74x line (table row `F74x ... 449`). -/
def ID_STM32F74X : Nat := 0x449
/-- Modelled from the spec: code of the F76x line (table row `F76x ... 451`). -/
def ID_STM32F76X : Nat := 0x451
/-- Modelled from the spec: code of the F72x line (table row `F72x ... 452`). -/
def ID_STM32F72X : Nat := 0x452
/-- Modelled from the spec: code of the F410 (table row `F410 ... 458`). -/
def ID_STM32F410 : Nat := 0x458
/-- Modelled from the spec: code of the F413 (table row `F413 ... 463`). -/
def ID_STM32F413 : Nat := 0x463

/-! ## Device catalog -/

/-- The function `stm32f4_add_flash(t, addr, length, blocksize, base_sector)`.  The static
backing store that stands in for `calloc` is an allocation detail; the
descriptor is a value here. -/
def stm32f4_add_flash (t : target) (addr length blocksize base_sector : Nat) : target :=
  target_add_flash t
    { start := u32 addr
      length := length
      blocksize := blocksize
      erase := Handler.stm32f4_flash_erase
      write := Handler.stm32f4_flash_write
      align := 4
      erased := 0xff
      base_sector := u8 base_sector
      psize := 32 }

/-- The `switch (idcode)` of `stm32f4_probe`, with its fall-through chain:
`none` is the `default: return false`, `some t` the record at the `break`. -/
def stm32f4_probe_switch (idcode : Nat) (f2 : Bool) (t : target) : Option target :=
  if idcode = ID_STM32F42X ∨ idcode = ID_STM32F46X ∨ idcode = ID_STM32F20X ∨
      idcode = ID_STM32F40X ∨ idcode = ID_STM32F446 ∨ idcode = ID_STM32F401C ∨
      idcode = ID_STM32F411 ∨ idcode = ID_STM32F412 ∨ idcode = ID_STM32F401E then
    -- case ID_STM32F42X, ID_STM32F46X: second bank for 2M parts
    let t1 :=
      if idcode = ID_STM32F42X ∨ idcode = ID_STM32F46X then
        let a := stm32f4_add_flash t 0x8100000 0x10000 0x4000 12
        let b := stm32f4_add_flash a 0x8110000 0x10000 0x10000 16
        stm32f4_add_flash b 0x8120000 0xE0000 0x20000 17
      else t
    -- falls through to case ID_STM32F20X, ID_STM32F40X
    let t2 :=
      if idcode = ID_STM32F42X ∨ idcode = ID_STM32F46X ∨ idcode = ID_STM32F20X ∨
          idcode = ID_STM32F40X then
        if !f2 then target_add_ram t1 0x10000000 0x10000 else t1
      else t1
    -- falls through to the devices without CCMRAM
    let t3 := { t2 with driver := if f2 then DriverStr.stm32f2_driver_str
                                  else DriverStr.stm32f4_driver_str }
    let t4 := target_add_ram t3 0x20000000 0x40000
    let t5 := stm32f4_add_flash t4 0x8000000 0x10000 0x4000 0
    let t6 := stm32f4_add_flash t5 0x8010000 0x10000 0x10000 4
    let t7 := stm32f4_add_flash t6 0x8020000 0xE0000 0x20000 5
    some (target_add_commands t7 CmdTable.stm32f4_cmd_list (if f2 then "STM32F2" else "STM32F4"))
  else if idcode = ID_STM32F413 then
    let t1 := { t with driver := DriverStr.stm32f4_driver_str }
    let t2 := target_add_ram t1 0x20000000 0x50000
    let t3 := stm32f4_add_flash t2 0x8000000 0x10000 0x4000 0
    let t4 := stm32f4_add_flash t3 0x8010000 0x10000 0x10000 4
    let t5 := stm32f4_add_flash t4 0x8020000 0x160000 0x20000 5
    some (target_add_commands t5 CmdTable.stm32f4_cmd_list "STM32F413")
  else if idcode = ID_STM32F74X then
    let t1 := { t with driver := DriverStr.stm32f7_driver_str }
    let t2 := target_add_ram t1 0x00000000 0x4000
    let t3 := target_add_ram t2 0x20000000 0x50000
    -- AXIM flash access
    let t4 := stm32f4_add_flash t3 0x8000000 0x20000 0x8000 0
    let t5 := stm32f4_add_flash t4 0x8020000 0x20000 0x20000 4
    let t6 := stm32f4_add_flash t5 0x8040000 0xC0000 0x40000 5
    -- flash aliased as ITCM
    let t7 := stm32f4_add_flash t6 0x0200000 0x20000 0x8000 0
    let t8 := stm32f4_add_flash t7 0x0220000 0x20000 0x20000 4
    let t9 := stm32f4_add_flash t8 0x0240000 0xC0000 0x40000 5
    some (target_add_commands t9 CmdTable.stm32f4_cmd_list "STM32F74x")
  else if idcode = ID_STM32F76X then
    let t1 := { t with driver := DriverStr.stm32f7_driver_str }
    let t2 := target_add_ram t1 0x00000000 0x4000
    let t3 := target_add_ram t2 0x20000000 0x80000
    -- AXIM flash access
    let t4 := stm32f4_add_flash t3 0x8000000 0x020000 0x8000 0
    let t5 := stm32f4_add_flash t4 0x8020000 0x020000 0x20000 4
    let t6 := stm32f4_add_flash t5 0x8040000 0x1C0000 0x40000 5
    -- flash aliased as ITCM
    let t7 := stm32f4_add_flash t6 0x200000 0x020000 0x8000 0
    let t8 := stm32f4_add_flash t7 0x220000 0x020000 0x20000 4
    let t9 := stm32f4_add_flash t8 0x240000 0x1C0000 0x40000 5
    some (target_add_commands t9 CmdTable.stm32f4_cmd_list "STM32F76x")
  else if idcode = ID_STM32F72X then
    let t1 := { t with driver := DriverStr.stm32f7_driver_str }
    let t2 := target_add_ram t1 0x00000000 0x2000
    let t3 := target_add_ram t2 0x20000000 0x40000
    let t4 := stm32f4_add_flash t3 0x8000000 0x010000 0x4000 0
    let t5 := stm32f4_add_flash t4 0x8010000 0x010000 0x10000 4
    let t6 := stm32f4_add_flash t5 0x8020000 0x060000 0x20000 3
    some (target_add_commands t6 CmdTable.stm32f4_cmd_list "STM32F72x")
  else none

/-- The function `stm32f4_probe(t)`: the result, the device record and the session afterwards. -/
def stm32f4_probe (K : Consts) (O : Oracle) (t : target) (w : World) : Bool × target × World :=
  let (idreg, w1) := target_mem_read32 O w K.DBGMCU_IDCODE
  let idcode0 := idreg &&& 0xFFF
  let (idcode, f2, w2) :=
    if idcode0 = ID_STM32F20X then
      -- F405 revision A has a wrong IDCODE: ARM_CPUID makes the distinction with F205
      let (cpuid, w2) := target_mem_read32 O w1 K.ARM_CPUID
      if cpuid &&& 0xFFF0 = 0xC240 then (ID_STM32F40X, false, w2) else (idcode0, true, w2)
    else (idcode0, false, w1)
  match stm32f4_probe_switch idcode f2 t with
  | none => (false, t, w2)
  | some t1 => (true, { t1 with idcode := idcode }, w2)

/-! ## Erase engine -/

/-- The function `stm32f4_flash_unlock(t)`. -/
def stm32f4_flash_unlock (K : Consts) (O : Oracle) (w : World) : World :=
  let (cr, w1) := target_mem_read32 O w K.FLASH_CR
  if cr &&& K.FLASH_CR_LOCK ≠ 0 then
    let w2 := target_mem_write32 w1 K.FLASH_KEYR K.KEY1
    target_mem_write32 w2 K.FLASH_KEYR K.KEY2
  else w1

/-- The poll loop
`while (target_mem_read32(t, FLASH_SR) & FLASH_SR_BSY) if (target_check_error(t)) return ...;`.
Result `true`: the loop was left through the `return`; `false`: the busy bit
read clear.  `none`: out of fuel. -/
def pollBusy (K : Consts) (O : Oracle) : Nat → World → Option (Bool × World)
  | 0, _ => none
  | fuel + 1, w =>
    let (sr, w1) := target_mem_read32 O w K.FLASH_SR
    if sr &&& K.FLASH_SR_BSY ≠ 0 then
      let (e, w2) := target_check_error O w1
      if e then some (true, w2) else pollBusy K O fuel w2
    else some (false, w1)

/-- The `while(len)` loop of `stm32f4_flash_erase`.  Result `true`: left through
`return -1` inside the poll; `false`: left through the loop condition or the
`break`.  `none`: out of fuel. -/
def eraseLoop (K : Consts) (O : Oracle) (blocksize : Nat) :
    Nat → World → Nat → Nat → Option (Bool × World)
  | 0, _, _, _ => none
  | fuel + 1, w, len, sector =>
    if len = 0 then some (false, w)
    else
      let cr := u32 (K.FLASH_CR_EOPIE ||| K.FLASH_CR_ERRIE ||| K.FLASH_CR_SER ||| (sector <<< 3))
      let w1 := target_mem_write32 w K.FLASH_CR cr
      let w2 := target_mem_write32 w1 K.FLASH_CR (cr ||| K.FLASH_CR_STRT)
      match pollBusy K O fuel w2 with
      | none => none
      | some (true, w3) => some (true, w3)
      | some (false, w3) =>
        if len < blocksize then some (false, w3)
        else eraseLoop K O blocksize fuel w3 (len - blocksize) (u8 (sector + 1))

/-- The function `stm32f4_flash_erase(f, addr, len)`.  `none`: out of fuel, or the division
by a zero block size (undefined in C). -/
def stm32f4_flash_erase (K : Consts) (O : Oracle) (fuel : Nat) (f : stm32f4_flash)
    (addr len : Nat) (w : World) : Option (Int × World) :=
  if f.blocksize = 0 then none
  else
    let sector := u8 (f.base_sector + u32 (u32 addr + 2 ^ 32 - u32 f.start) / f.blocksize)
    let w1 := stm32f4_flash_unlock K O w
    match eraseLoop K O f.blocksize fuel w1 len sector with
    | none => none
    | some (true, w2) => some (-1, w2)
    | some (false, w2) =>
      let (v, w3) := target_mem_read32 O w2 K.FLASH_SR
      let sr := u16 v
      if sr &&& K.SR_ERROR_MASK ≠ 0 then some (-1, w3) else some (0, w3)

/-! ## Write path -/

/-- The function `stm32f4_flash_write(f, dest, src, len)`: the exit code of the stub. -/
def stm32f4_flash_write (K : Consts) (O : Oracle) (f : stm32f4_flash)
    (dest : Nat) (src : List Nat) (len : Nat) (w : World) : Int × World :=
  let dest0 := u32 dest
  -- translate ITCM addresses to AXIM
  let dest1 :=
    if K.ITCM_BASE ≤ dest0 ∧ dest0 < K.AXIM_BASE then u32 (K.AXIM_BASE + (dest0 - K.ITCM_BASE))
    else dest0
  let w1 :=
    if f.psize = 32 then
      target_mem_write w K.SRAM_BASE K.stm32f4_flash_write_x32_stub
        K.stm32f4_flash_write_x32_stub.length
    else
      target_mem_write w K.SRAM_BASE K.stm32f4_flash_write_x8_stub
        K.stm32f4_flash_write_x8_stub.length
  let w2 := target_mem_write w1 K.STUB_BUFFER_BASE src len
  cortexm_run_stub O w2 K.SRAM_BASE dest1 K.STUB_BUFFER_BASE len 0

/-! ## Option bytes -/

/-- The array `uint32_t val[3]` of option words. -/
structure OptionWords where
  v0 : Nat
  v1 : Nat
  v2 : Nat
  deriving DecidableEq, Repr

/-- The function `optcr_mask(t, val)`: the result and the array afterwards. -/
def optcr_mask (t : target) (val : OptionWords) : Bool × OptionWords :=
  if t.idcode = ID_STM32F20X ∨ t.idcode = ID_STM32F40X then
    (true, { val with v0 := val.v0 &&& not32 0xF0000010 })
  else if t.idcode = ID_STM32F46X ∨ t.idcode = ID_STM32F42X then
    (true, { val with v0 := val.v0 &&& not32 0x30000000, v1 := val.v1 &&& 0x0fff0000 })
  else if t.idcode = ID_STM32F401C then
    (true, { val with v0 := val.v0 &&& not32 0x7FC00010 })
  else if t.idcode = ID_STM32F446 ∨ t.idcode = ID_STM32F411 ∨ t.idcode = ID_STM32F401E then
    (true, { val with v0 := val.v0 &&& not32 0x7F000010 })
  else if t.idcode = ID_STM32F410 then
    (true, { val with v0 := val.v0 &&& not32 0x7FE00010 })
  else if t.idcode = ID_STM32F412 then
    (true, { val with v0 := val.v0 &&& not32 0x70000010 })
  else if t.idcode = ID_STM32F413 then
    (true, { val with v0 := val.v0 &&& not32 0x00000010 })
  else if t.idcode = ID_STM32F72X then
    -- val[2] is masked, then the case falls through to ID_STM32F74X
    (true, { val with v2 := val.v2 &&& not32 0x800000ff, v0 := val.v0 &&& not32 0x3F000000 })
  else if t.idcode = ID_STM32F74X then
    (true, { val with v0 := val.v0 &&& not32 0x3F000000 })
  else if t.idcode = ID_STM32F76X then
    (true, val)
  else (false, val)

/-- Conversion of an `int` to `bool` (`_Bool`): every nonzero value is `true`. -/
def boolOfInt (i : Int) : Bool := decide (i ≠ 0)

/-- The function `stm32f4_option_write(t, val, count)`.  The first poll loop leaves through
`return -1`, which the `bool` return type converts. -/
def stm32f4_option_write (K : Consts) (O : Oracle) (fuel : Nat) (t : target)
    (val : OptionWords) (count : Int) (w : World) : Option (Bool × World) :=
  let w1 := target_mem_write32 w K.FLASH_OPTKEYR K.OPTKEY1
  let w2 := target_mem_write32 w1 K.FLASH_OPTKEYR K.OPTKEY2
  match pollBusy K O fuel w2 with
  | none => none
  | some (true, w3) => some (boolOfInt (-1), w3)
  | some (false, w3) =>
    -- write option bytes instruction
    let w4 :=
      if (t.idcode = ID_STM32F42X ∨ t.idcode = ID_STM32F46X ∨ t.idcode = ID_STM32F72X ∨
          t.idcode = ID_STM32F74X ∨ t.idcode = ID_STM32F76X) ∧ count > 1 then
        target_mem_write32 w3 (K.FLASH_OPTCR + 4) val.v1
      else w3
    let w5 :=
      if t.idcode = ID_STM32F72X ∧ count > 2 then
        target_mem_write32 w4 (K.FLASH_OPTCR + 8) val.v2
      else w4
    let w6 := target_mem_write32 w5 K.FLASH_OPTCR val.v0
    let w7 := target_mem_write32 w6 K.FLASH_OPTCR (val.v0 ||| K.FLASH_OPTCR_OPTSTRT)
    match pollBusy K O fuel w7 with
    | none => none
    | some (true, w8) => some (false, w8)
    | some (false, w8) => some (true, target_mem_write32 w8 K.FLASH_OPTCR K.FLASH_OPTCR_OPTLOCK)

/-- The words and the count that `stm32f4_option_write_default` hands to
`stm32f4_option_write`; `val` is the uninitialised local array. -/
def stm32f4_option_default_args (t : target) (val : OptionWords) : OptionWords × Int :=
  if t.idcode = ID_STM32F42X ∨ t.idcode = ID_STM32F46X then
    ({ val with v0 := 0x0FFFAAED, v1 := 0x0FFF0000 }, 2)
  else if t.idcode = ID_STM32F72X then
    ({ v0 := 0xC0FFAAFD, v1 := 0x00400080, v2 := 0 }, 3)
  else if t.idcode = ID_STM32F74X then
    ({ val with v0 := 0xC0FFAAFD, v1 := 0x00400080 }, 2)
  else if t.idcode = ID_STM32F76X then
    ({ val with v0 := 0xFFFFAAFD, v1 := 0x00400080 }, 2)
  else if t.idcode = ID_STM32F413 then
    ({ val with v0 := 0x7FFFAAFD }, 1)
  else
    ({ val with v0 := 0x0FFFAAED }, 1)

/-- The function `stm32f4_option_write_default(t)`; `val` is the uninitialised local array. -/
def stm32f4_option_write_default (K : Consts) (O : Oracle) (fuel : Nat) (t : target)
    (val : OptionWords) (w : World) : Option (Bool × World) :=
  let args := stm32f4_option_default_args t val
  stm32f4_option_write K O fuel t args.1 args.2 w

/-- The first `count` words of an array: the words a call with this count hands over. -/
def OptionWords.take (val : OptionWords) (count : Int) : List Nat :=
  (if count > 0 then [val.v0] else []) ++ (if count > 1 then [val.v1] else []) ++
    (if count > 2 then [val.v2] else [])

/-- Two regions do not overlap as address ranges `[start, start + length)`. -/
def stm32f4_flash.disjoint (a b : stm32f4_flash) : Prop :=
  a.start + a.length ≤ b.start ∨ b.start + b.length ≤ a.start

instance (a b : stm32f4_flash) : Decidable (a.disjoint b) := by
  unfold stm32f4_flash.disjoint; infer_instance

/-- A flash region as `stm32f4_add_flash` builds it. -/
def mkFlash (start length blocksize base_sector : Nat) : stm32f4_flash :=
  { start := start, length := length, blocksize := blocksize,
    erase := Handler.stm32f4_flash_erase, write := Handler.stm32f4_flash_write,
    align := 4, erased := 0xff, base_sector := base_sector, psize := 32 }

/-- The identification codes that `stm32f4_probe` has a `case` for. -/
def probeCodes : List Nat :=
  [0x411, 0x413, 0x419, 0x421, 0x423, 0x431, 0x433, 0x434, 0x441, 0x449, 0x451, 0x452, 0x463]

/-- A device record on which no driver has registered anything. -/
def blankTarget : target :=
  { idcode := 0, driver := DriverStr.foreign 0, flash := [], ram := [], commands := [] }

/-- An oracle whose every 32-bit read returns `v`, that never reports a
connection error and whose stub runs exit with 0. -/
def constOracle (v : Nat) : Oracle :=
  { mem32 := fun _ _ => v, error := fun _ => false, stub := fun _ => 0 }

/-! ## Behaviour of the device during a poll -/

/-- Every busy poll eventually reads not-busy: after every read there is a
later read at which `FLASH_SR` has the busy bit clear. -/
def Ready (K : Consts) (O : Oracle) : Prop :=
  ∀ k, ∃ j, k ≤ j ∧ u32 (O.mem32 j K.FLASH_SR) &&& K.FLASH_SR_BSY = 0

/-- The connection never reports an error. -/
def NoError (O : Oracle) : Prop := ∀ k, O.error k = false

/-- The connection keeps reporting errors: after every query there is a later
query that reports one. -/
def ErrorsRecur (O : Oracle) : Prop := ∀ k, ∃ j, k ≤ j ∧ O.error j = true

/-- The log of one poll loop: busy reads of `FLASH_SR`, each followed by an
error query, ended by a read with the busy bit clear (`false`) or by an error
query that reports an error (`true`). -/
inductive PollTrace (K : Consts) : Bool → List Event → Prop
  | ready (v : Nat) : v &&& K.FLASH_SR_BSY = 0 →
      PollTrace K false [Event.read32 K.FLASH_SR v]
  | abort (v : Nat) : v &&& K.FLASH_SR_BSY ≠ 0 →
      PollTrace K true [Event.read32 K.FLASH_SR v, Event.checkError true]
  | spin (v : Nat) (b : Bool) (evs : List Event) : v &&& K.FLASH_SR_BSY ≠ 0 →
      PollTrace K b evs →
      PollTrace K b (Event.read32 K.FLASH_SR v :: Event.checkError false :: evs)

/-- The sector-erase control word for a sector number. -/
def eraseCmd (K : Consts) (sector : Nat) : Nat :=
  u32 (K.FLASH_CR_EOPIE ||| K.FLASH_CR_ERRIE ||| K.FLASH_CR_SER ||| (sector <<< 3))

/-- The command pair `(cr, cr | FLASH_CR_STRT)` written to `FLASH_CR` for a sector. -/
def erasePair (K : Consts) (sector : Nat) : List (Nat × Nat) :=
  [(K.FLASH_CR, eraseCmd K sector), (K.FLASH_CR, eraseCmd K sector ||| K.FLASH_CR_STRT)]

/-- The command pairs of `n` consecutive sectors, counted in 8 bits, from `sector` on. -/
def eraseCmds (K : Consts) : Nat → Nat → List (Nat × Nat)
  | 0, _ => []
  | n + 1, sector => erasePair K sector ++ eraseCmds K n (u8 (sector + 1))

/-- A device that is busy at two reads out of three, never reports a
connection error, and has the lock bit clear. -/
def pulseOracle : Oracle :=
  { mem32 := fun n _ => if n % 3 = 0 then 0 else 0x10000, error := fun _ => false,
    stub := fun _ => 0 }

/-- A failing link: every read returns the busy pattern and every query
reports a connection error. -/
def deadLinkOracle : Oracle :=
  { mem32 := fun _ _ => 0x10000, error := fun _ => true, stub := fun _ => 0 }

/-- A link that fails after the first read: the first read is not busy, every
later read is, and every query reports a connection error. -/
def lateFailOracle : Oracle :=
  { mem32 := fun n _ => if n = 0 then 0 else 0x10000, error := fun _ => true,
    stub := fun _ => 0 }

/-- The register writes that the option write is specified to perform, as
(address, value): the two keys to the keyhole, the second word (variants that
have one, more than one word given), the third word (F72x, more than two words
given), the primary word, the primary word with the start bit, the lock. -/
def optionWriteSequence (K : Consts) (t : target) (val : OptionWords) (count : Int) :
    List (Nat × Nat) :=
  [(K.FLASH_OPTKEYR, K.OPTKEY1), (K.FLASH_OPTKEYR, K.OPTKEY2)] ++
    (if (t.idcode = ID_STM32F42X ∨ t.idcode = ID_STM32F46X ∨ t.idcode = ID_STM32F72X ∨
        t.idcode = ID_STM32F74X ∨ t.idcode = ID_STM32F76X) ∧ count > 1
      then [(K.FLASH_OPTCR + 4, val.v1)] else []) ++
    (if t.idcode = ID_STM32F72X ∧ count > 2 then [(K.FLASH_OPTCR + 8, val.v2)] else []) ++
    [(K.FLASH_OPTCR, val.v0), (K.FLASH_OPTCR, val.v0 ||| K.FLASH_OPTCR_OPTSTRT),
      (K.FLASH_OPTCR, K.FLASH_OPTCR_OPTLOCK)]

/-- A device record classified as F72x. -/
def f72xTarget : target := { blankTarget with idcode := ID_STM32F72X }

/-! ## Command surface -/

/-- Result of a command that indexes its argument vector: `done` with the
value, `outOfFuel` when a poll loop exhausted the fuel, `badIndex i` when the
command indexed `argv[i]` with `i` at or beyond `argc` (undefined in C). -/
inductive CmdResult (α : Type) where
  | done (a : α)
  | outOfFuel
  | badIndex (i : Nat)
  deriving DecidableEq, Repr

/-- The conversion `%08X` of `tc_printf`: upper-case hexadecimal, zero-padded
to eight digits. -/
def fmt08X (n : Nat) : String :=
  let ds := (Nat.toDigits 16 n).map Char.toUpper
  String.mk (List.replicate (8 - ds.length) '0' ++ ds)

/-- The line feed that ends a line of output. -/
def newline : String := String.singleton (Char.ofNat 10)

/-- The option-byte base address and `readcount` that `stm32f4_cmd_option`
selects in its `switch (t->idcode)`. -/
def stm32f4_cmd_option_layout (t : target) : Nat × Int :=
  if t.idcode = ID_STM32F72X then (0x1FFF0000, 3)
  else if t.idcode = ID_STM32F74X ∨ t.idcode = ID_STM32F76X then (0x1FFF0000, 2)
  else if t.idcode = ID_STM32F42X ∨ t.idcode = ID_STM32F46X then (0x1FFFC000, 2)
  else (0x1FFFC000, 1)

/-- The sub-action part of `stm32f4_cmd_option` (the `if` / `else if` / `else`
on `argv[1]`): the array `val` and the session afterwards.  `argc` is the
length of `argv`; `strtoul` is the C library conversion; `val` and `dval` are
the uninitialised local arrays of this function and of
`stm32f4_option_write_default`. -/
def stm32f4_cmd_option_action (K : Consts) (O : Oracle) (strtoul : String → Nat) (fuel : Nat)
    (t : target) (argv : List String) (val dval : OptionWords) (readcount : Int) (w : World) :
    CmdResult (OptionWords × World) :=
  let argc : Int := argv.length
  if argc = 2 ∧ argv.get? 1 = some "erase" then
    match stm32f4_option_write_default K O fuel t dval w with
    | none => CmdResult.outOfFuel
    | some (_, w1) => CmdResult.done (val, w1)
  else if argc > 1 ∧ argv.get? 1 = some "write" then
    match argv.get? 2 with
    | none => CmdResult.badIndex 2
    | some a2 =>
      let val1 := { val with v0 := u32 (strtoul a2) }
      let count : Int := 1
      let step2 : CmdResult (OptionWords × Int) :=
        if argc > 2 then
          match argv.get? 3 with
          | none => CmdResult.badIndex 3
          | some a3 => CmdResult.done ({ val1 with v1 := u32 (strtoul a3) }, count + 1)
        else CmdResult.done (val1, count)
      match step2 with
      | CmdResult.outOfFuel => CmdResult.outOfFuel
      | CmdResult.badIndex i => CmdResult.badIndex i
      | CmdResult.done (val2, count2) =>
        let step3 : CmdResult (OptionWords × Int) :=
          if argc > 3 then
            match argv.get? 4 with
            | none => CmdResult.badIndex 4
            | some a4 => CmdResult.done ({ val2 with v2 := u32 (strtoul a4) }, count2 + 1)
          else CmdResult.done (val2, count2)
        match step3 with
        | CmdResult.outOfFuel => CmdResult.outOfFuel
        | CmdResult.badIndex i => CmdResult.badIndex i
        | CmdResult.done (val3, count3) =>
          let m := optcr_mask t val3
          if m.1 then
            match stm32f4_option_write K O fuel t m.2 count3 w with
            | none => CmdResult.outOfFuel
            | some (_, w1) => CmdResult.done (m.2, w1)
          else CmdResult.done (m.2, tc_printf w ("error" ++ newline))
  else
    let w1 := tc_printf w ("usage: monitor option erase" ++ newline)
    let w2 := tc_printf w1 "usage: monitor option write <OPTCR>"
    let w3 := if readcount > 1 then tc_printf w2 " <OPTCR1>" else w2
    let w4 := if readcount > 2 then tc_printf w3 " <OPTCR2>" else w3
    CmdResult.done (val, tc_printf w4 newline)

/-- The report part of `stm32f4_cmd_option` (from the first read of the option
bytes to the final line feed): the session afterwards. -/
def stm32f4_cmd_option_report (O : Oracle) (t : target) (start : Nat) (readcount : Int)
    (val : OptionWords) (w : World) : World :=
  let (hi0, w1) := target_mem_read32 O w (start + 8)
  let (lo0, w2) := target_mem_read32 O w1 start
  let val0 := { val with v0 := u32 ((hi0 &&& 0xffff) <<< 16) ||| (lo0 &&& 0xffff) }
  let (val1, w4) :=
    if readcount > 1 then
      if start = 0x1FFFC000 then
        -- F4
        let (r, w3) := target_mem_read32 O w2 (u32 (start + 8 + 2 ^ 32 - 0x10000))
        ({ val0 with v1 := r &&& 0xffff }, w3)
      else
        let (hi1, w3) := target_mem_read32 O w2 (start + 0x18)
        let (lo1, w4) := target_mem_read32 O w3 (start + 0x10)
        ({ val0 with v1 := u32 ((hi1 &&& 0xffff) <<< 16) ||| (lo1 &&& 0xffff) }, w4)
    else (val0, w2)
  let (val2, w6) :=
    if readcount > 2 then
      let (hi2, w5) := target_mem_read32 O w4 (start + 0x28)
      let (lo2, w6) := target_mem_read32 O w5 (start + 0x20)
      ({ val1 with v2 := u32 ((hi2 &&& 0xffff) <<< 16) ||| (lo2 &&& 0xffff) }, w6)
    else (val1, w4)
  let val3 := (optcr_mask t val2).2
  let w7 := tc_printf w6 ("OPTCR: 0x" ++ fmt08X val3.v0 ++ " ")
  let w8 := if readcount > 1 then tc_printf w7 ("OPTCR1: 0x" ++ fmt08X val3.v1 ++ " ") else w7
  let w9 := if readcount > 2 then tc_printf w8 ("OPTCR2: 0x" ++ fmt08X val3.v2) else w8
  tc_printf w9 newline

/-- The function `stm32f4_cmd_option(t, argc, argv)`: the layout switch, the
sub-action, then the report; it returns true. -/
def stm32f4_cmd_option (K : Consts) (O : Oracle) (strtoul : String → Nat) (fuel : Nat)
    (t : target) (argv : List String) (val dval : OptionWords) (w : World) :
    CmdResult (Bool × World) :=
  let layout := stm32f4_cmd_option_layout t
  match stm32f4_cmd_option_action K O strtoul fuel t argv val dval layout.2 w with
  | CmdResult.outOfFuel => CmdResult.outOfFuel
  | CmdResult.badIndex i => CmdResult.badIndex i
  | CmdResult.done (val1, w1) =>
    CmdResult.done (true, stm32f4_cmd_option_report O t layout.1 layout.2 val1 w1)

/-- The scan of `stm32f4_cmd_psize` over the flash list: the parallelism of the
regions whose write handler is `stm32f4_flash_write`, each match overwriting
the previous one, from the initial value `psize`. -/
def psizeScan (psize : Nat) : List stm32f4_flash → Nat
  | [] => psize
  | f :: fs =>
    psizeScan (if f.write = Handler.stm32f4_flash_write then u8 f.psize else psize) fs

/-- The function `stm32f4_cmd_psize(t, argc, argv)`: the result, the device
record and the session afterwards.  `argc` is the length of `argv`. -/
def stm32f4_cmd_psize (t : target) (argv : List String) (w : World) :
    CmdResult (Bool × target × World) :=
  let argc : Int := argv.length
  if argc = 1 then
    let psize := psizeScan 8 t.flash
    CmdResult.done (true, t,
      tc_printf w ("Flash write parallelism: " ++ (if psize = 32 then "x32" else "x8") ++ newline))
  else
    match argv.get? 1 with
    | none => CmdResult.badIndex 1
    | some a =>
      if a = "x8" then
        CmdResult.done (true,
          { t with flash := t.flash.map (fun f =>
              if f.write = Handler.stm32f4_flash_write then { f with psize := 8 } else f) }, w)
      else if a = "x32" then
        CmdResult.done (true,
          { t with flash := t.flash.map (fun f =>
              if f.write = Handler.stm32f4_flash_write then { f with psize := 32 } else f) }, w)
      else
        CmdResult.done (false, t, tc_printf w ("usage: monitor psize (x8|x32)" ++ newline))

/-- The characters of the progress spinner of `stm32f4_cmd_erase_mass`. -/
def spinner : List Char := ['|', '/', '-', Char.ofNat 92]

/-- The poll loop of `stm32f4_cmd_erase_mass`: each busy read prints a backspace
and the next spinner character, then queries the connection; on an error it
prints a line feed and the function returns (`true`).  `false`: the busy bit
read clear.  `none`: out of fuel.  The `int` counter is not bounded here. -/
def massErasePoll (K : Consts) (O : Oracle) : Nat → World → Nat → Option (Bool × World)
  | 0, _, _ => none
  | fuel + 1, w, spinindex =>
    let (sr, w1) := target_mem_read32 O w K.FLASH_SR
    if sr &&& K.FLASH_SR_BSY ≠ 0 then
      let w2 := tc_printf w1
        (String.mk [Char.ofNat 8, spinner.getD (spinindex % 4) (Char.ofNat 0)])
      let (e, w3) := target_check_error O w2
      if e then some (true, tc_printf w3 newline)
      else massErasePoll K O fuel w3 (spinindex + 1)
    else some (false, w1)

/-- The function `stm32f4_cmd_erase_mass(t)`. -/
def stm32f4_cmd_erase_mass (K : Consts) (O : Oracle) (fuel : Nat) (w : World) :
    Option (Bool × World) :=
  let w0 := tc_printf w "Erasing flash... This may take a few seconds.  "
  let w1 := stm32f4_flash_unlock K O w0
  -- flash mass erase start instruction
  let w2 := target_mem_write32 w1 K.FLASH_CR K.FLASH_CR_MER
  let w3 := target_mem_write32 w2 K.FLASH_CR (K.FLASH_CR_STRT ||| K.FLASH_CR_MER)
  match massErasePoll K O fuel w3 0 with
  | none => none
  | some (true, w4) => some (false, w4)
  | some (false, w4) =>
    let w5 := tc_printf w4 newline
    -- check for error
    let (v, w6) := target_mem_read32 O w5 K.FLASH_SR
    let sr := u16 v
    if sr &&& K.SR_ERROR_MASK ≠ 0 ∨ ¬ (sr &&& K.SR_EOP ≠ 0) then some (false, w6)
    else some (true, w6)

/-- The starting sector that `stm32f4_flash_erase` computes for an address
through a region. -/
def eraseStartSector (f : stm32f4_flash) (addr : Nat) : Nat :=
  u8 (f.base_sector + u32 (u32 addr + 2 ^ 32 - u32 f.start) / f.blocksize)

/-- A device whose identification register reads `idreg` and whose every other
register, the CPU-identification register included, reads `other`; no
connection error, stub exit code 0. -/
def idOracle (K : Consts) (idreg other : Nat) : Oracle :=
  { mem32 := fun _ a => if a = K.DBGMCU_IDCODE then idreg else other,
    error := fun _ => false, stub := fun _ => 0 }

/-- The device record after a successful probe of an F405 (identification
register 0x10016413) on a blank record. -/
def f405Record : target :=
  (stm32f4_probe refConsts (constOracle 0x10016413) blankTarget World.init).2.1

/-- The word that two reads of option-byte halves compose: the low 16 bits of
`hi` above the low 16 bits of `lo`. -/
def halves (hi lo : Nat) : Nat := ((hi &&& 0xFFFF) <<< 16) ||| (lo &&& 0xFFFF)

/-- The value that the read number `i`, counted from the session `w`, returns
at address `addr`. -/
def readAt (O : Oracle) (w : World) (i addr : Nat) : Nat := u32 (O.mem32 (w.nread + i) addr)

/-- A device record classified as F42x. -/
def f42xTarget : target := { blankTarget with idcode := ID_STM32F42X }

/-! ## Theorems -/

/-- Clearing the same bits twice is clearing them once. -/
theorem land_land_self (a c : Nat) : (a &&& c) &&& c = a &&& c := by
  rw [Nat.land_assoc, Nat.and_self]

/-- C4: `optcr_mask` is idempotent: for every identification code and every
triple of option words, masking the masked words again yields the same three
words and the same boolean result. -/
theorem optcr_mask_idempotent (t : target) (val : OptionWords) :
    optcr_mask t (optcr_mask t val).2 = optcr_mask t val := by
  unfold optcr_mask
  by_cases h1 : t.idcode = ID_STM32F20X ∨ t.idcode = ID_STM32F40X
  · simp only [h1, ↓reduceIte, land_land_self]
  simp only [h1, ↓reduceIte]
  by_cases h2 : t.idcode = ID_STM32F46X ∨ t.idcode = ID_STM32F42X
  · simp only [h2, ↓reduceIte, land_land_self]
  simp only [h2, ↓reduceIte]
  by_cases h3 : t.idcode = ID_STM32F401C
  · simp only [h3, ↓reduceIte, land_land_self]
  simp only [h3, ↓reduceIte]
  by_cases h4 : t.idcode = ID_STM32F446 ∨ t.idcode = ID_STM32F411 ∨ t.idcode = ID_STM32F401E
  · simp only [h4, ↓reduceIte, land_land_self]
  simp only [h4, ↓reduceIte]
  by_cases h5 : t.idcode = ID_STM32F410
  · simp only [h5, ↓reduceIte, land_land_self]
  simp only [h5, ↓reduceIte]
  by_cases h6 : t.idcode = ID_STM32F412
  · simp only [h6, ↓reduceIte, land_land_self]
  simp only [h6, ↓reduceIte]
  by_cases h7 : t.idcode = ID_STM32F413
  · simp only [h7, ↓reduceIte, land_land_self]
  simp only [h7, ↓reduceIte]
  by_cases h8 : t.idcode = ID_STM32F72X
  · simp only [h8, ↓reduceIte, land_land_self]
  simp only [h8, ↓reduceIte]
  by_cases h9 : t.idcode = ID_STM32F74X
  · simp only [h9, ↓reduceIte, land_land_self]
  simp only [h9, ↓reduceIte]
  by_cases h10 : t.idcode = ID_STM32F76X
  · simp only [h10, ↓reduceIte]
  simp only [h10, ↓reduceIte]

/-! ### Device catalog -/

/-- The probe when the code is not the ambiguous one: one read, then the dispatch. -/
theorem stm32f4_probe_of_ne (K : Consts) (O : Oracle) (t : target) (w : World)
    (h : u32 (O.mem32 w.nread K.DBGMCU_IDCODE) &&& 0xFFF ≠ ID_STM32F20X) :
    stm32f4_probe K O t w =
      match stm32f4_probe_switch (u32 (O.mem32 w.nread K.DBGMCU_IDCODE) &&& 0xFFF) false t with
      | none => (false, t, (target_mem_read32 O w K.DBGMCU_IDCODE).2)
      | some t1 => (true, { t1 with idcode := u32 (O.mem32 w.nread K.DBGMCU_IDCODE) &&& 0xFFF },
          (target_mem_read32 O w K.DBGMCU_IDCODE).2) := by
  simp only [stm32f4_probe, target_mem_read32, if_neg h]

/-- The probe on the ambiguous code when the CPU-identification register carries
the F4 model field: the code is remapped. -/
theorem stm32f4_probe_of_f40x (K : Consts) (O : Oracle) (t : target) (w : World)
    (h : u32 (O.mem32 w.nread K.DBGMCU_IDCODE) &&& 0xFFF = ID_STM32F20X)
    (hc : u32 (O.mem32 (w.nread + 1) K.ARM_CPUID) &&& 0xFFF0 = 0xC240) :
    stm32f4_probe K O t w =
      match stm32f4_probe_switch ID_STM32F40X false t with
      | none => (false, t,
          (target_mem_read32 O (target_mem_read32 O w K.DBGMCU_IDCODE).2 K.ARM_CPUID).2)
      | some t1 => (true, { t1 with idcode := ID_STM32F40X },
          (target_mem_read32 O (target_mem_read32 O w K.DBGMCU_IDCODE).2 K.ARM_CPUID).2) := by
  simp only [stm32f4_probe, target_mem_read32, if_pos h, if_pos hc]

/-- The probe on the ambiguous code otherwise: the device is tagged F2. -/
theorem stm32f4_probe_of_f20x (K : Consts) (O : Oracle) (t : target) (w : World)
    (h : u32 (O.mem32 w.nread K.DBGMCU_IDCODE) &&& 0xFFF = ID_STM32F20X)
    (hc : u32 (O.mem32 (w.nread + 1) K.ARM_CPUID) &&& 0xFFF0 ≠ 0xC240) :
    stm32f4_probe K O t w =
      match stm32f4_probe_switch ID_STM32F20X true t with
      | none => (false, t,
          (target_mem_read32 O (target_mem_read32 O w K.DBGMCU_IDCODE).2 K.ARM_CPUID).2)
      | some t1 => (true, { t1 with idcode := ID_STM32F20X },
          (target_mem_read32 O (target_mem_read32 O w K.DBGMCU_IDCODE).2 K.ARM_CPUID).2) := by
  simp only [stm32f4_probe, target_mem_read32, if_pos h, if_neg hc]
  rw [h]

/-- C5: for every identification code that `stm32f4_probe` accepts (0x411 under
either outcome of the CPU-identification check, 0x413, 0x419, 0x421, 0x423,
0x431, 0x433, 0x434, 0x441, 0x449, 0x451, 0x452, 0x463) the probe succeeds and
the flash regions it registers are pairwise non-overlapping as address ranges
`[start, start + length)`. -/
theorem stm32f4_probe_regions_disjoint (K : Consts) (O : Oracle) (t : target) (w : World)
    (hid : u32 (O.mem32 w.nread K.DBGMCU_IDCODE) &&& 0xFFF ∈ probeCodes) :
    (stm32f4_probe K O t w).1 = true ∧
    ∃ regs, (stm32f4_probe K O t w).2.1.flash = t.flash ++ regs ∧ regs ≠ [] ∧
      regs.Pairwise stm32f4_flash.disjoint := by
  simp only [probeCodes, List.mem_cons, List.mem_singleton, List.not_mem_nil, or_false] at hid
  rcases hid with h | h | h | h | h | h | h | h | h | h | h | h | h
  · by_cases hc : u32 (O.mem32 (w.nread + 1) K.ARM_CPUID) &&& 0xFFF0 = 0xC240
    · rw [stm32f4_probe_of_f40x K O t w h hc]
      simp [stm32f4_probe_switch, ID_STM32F20X, ID_STM32F40X, ID_STM32F42X, ID_STM32F46X,
        stm32f4_add_flash, target_add_flash, target_add_ram, target_add_commands, u32, u8]
      decide
    · rw [stm32f4_probe_of_f20x K O t w h hc]
      simp [stm32f4_probe_switch, ID_STM32F20X, ID_STM32F40X, ID_STM32F42X, ID_STM32F46X,
        stm32f4_add_flash, target_add_flash, target_add_ram, target_add_commands, u32, u8]
      decide
  all_goals
    rw [stm32f4_probe_of_ne K O t w (by rw [h]; decide), h]
    simp [stm32f4_probe_switch, ID_STM32F20X, ID_STM32F40X, ID_STM32F42X, ID_STM32F46X,
      ID_STM32F446, ID_STM32F401C, ID_STM32F411, ID_STM32F412, ID_STM32F401E, ID_STM32F413,
      ID_STM32F74X, ID_STM32F76X, ID_STM32F72X,
      stm32f4_add_flash, target_add_flash, target_add_ram, target_add_commands, u32, u8]
    decide

/-- Witness of C5: a device whose identification register reads 0x10006449
(an F74x, which registers primary-bus and alias-window regions). -/
theorem stm32f4_probe_regions_disjoint_witness :
    u32 ((constOracle 0x10006449).mem32 World.init.nread refConsts.DBGMCU_IDCODE) &&& 0xFFF
        ∈ probeCodes ∧
    ((stm32f4_probe refConsts (constOracle 0x10006449) blankTarget World.init).1 = true ∧
    ∃ regs, (stm32f4_probe refConsts (constOracle 0x10006449) blankTarget World.init).2.1.flash
        = blankTarget.flash ++ regs ∧ regs ≠ [] ∧ regs.Pairwise stm32f4_flash.disjoint) :=
  ⟨by decide, stm32f4_probe_regions_disjoint refConsts (constOracle 0x10006449) blankTarget
    World.init (by decide)⟩

/-- C6: when the identification register reads 0x419 in its low 12 bits, the
probe returns true, records idcode 0x419, appends exactly the three bank-2
regions followed by the three regions of the common base to the flash list,
and appends the RAM regions (0x10000000, 0x10000) and (0x20000000, 0x40000);
it sets the F4 driver label and registers the command table as "STM32F4". -/
theorem stm32f4_probe_0x419 (K : Consts) (O : Oracle) (t : target) (w : World)
    (hid : u32 (O.mem32 w.nread K.DBGMCU_IDCODE) &&& 0xFFF = 0x419) :
    (stm32f4_probe K O t w).1 = true ∧
    (stm32f4_probe K O t w).2.1.idcode = 0x419 ∧
    (stm32f4_probe K O t w).2.1.flash = t.flash ++
      [mkFlash 0x8100000 0x10000 0x4000 12, mkFlash 0x8110000 0x10000 0x10000 16,
       mkFlash 0x8120000 0xE0000 0x20000 17, mkFlash 0x8000000 0x10000 0x4000 0,
       mkFlash 0x8010000 0x10000 0x10000 4, mkFlash 0x8020000 0xE0000 0x20000 5] ∧
    (stm32f4_probe K O t w).2.1.ram =
      t.ram ++ [⟨0x10000000, 0x10000⟩, ⟨0x20000000, 0x40000⟩] ∧
    (stm32f4_probe K O t w).2.1.driver = DriverStr.stm32f4_driver_str ∧
    (stm32f4_probe K O t w).2.1.commands =
      t.commands ++ [⟨CmdTable.stm32f4_cmd_list, "STM32F4"⟩] := by
  rw [stm32f4_probe_of_ne K O t w (by rw [hid]; decide), hid]
  simp [stm32f4_probe_switch, ID_STM32F42X, stm32f4_add_flash, target_add_flash,
    target_add_ram, target_add_commands, mkFlash, u32, u8]

/-- Witness of C6: the identification register reads 0x20016419. -/
theorem stm32f4_probe_0x419_witness :
    u32 ((constOracle 0x20016419).mem32 World.init.nread refConsts.DBGMCU_IDCODE) &&& 0xFFF
      = 0x419 ∧
    (stm32f4_probe refConsts (constOracle 0x20016419) blankTarget World.init).1 = true ∧
    (stm32f4_probe refConsts (constOracle 0x20016419) blankTarget World.init).2.1.idcode
      = 0x419 ∧
    (stm32f4_probe refConsts (constOracle 0x20016419) blankTarget World.init).2.1.flash =
      blankTarget.flash ++
      [mkFlash 0x8100000 0x10000 0x4000 12, mkFlash 0x8110000 0x10000 0x10000 16,
       mkFlash 0x8120000 0xE0000 0x20000 17, mkFlash 0x8000000 0x10000 0x4000 0,
       mkFlash 0x8010000 0x10000 0x10000 4, mkFlash 0x8020000 0xE0000 0x20000 5] ∧
    (stm32f4_probe refConsts (constOracle 0x20016419) blankTarget World.init).2.1.ram =
      blankTarget.ram ++ [⟨0x10000000, 0x10000⟩, ⟨0x20000000, 0x40000⟩] ∧
    (stm32f4_probe refConsts (constOracle 0x20016419) blankTarget World.init).2.1.driver =
      DriverStr.stm32f4_driver_str ∧
    (stm32f4_probe refConsts (constOracle 0x20016419) blankTarget World.init).2.1.commands =
      blankTarget.commands ++ [⟨CmdTable.stm32f4_cmd_list, "STM32F4"⟩] :=
  ⟨by decide, stm32f4_probe_0x419 refConsts (constOracle 0x20016419) blankTarget World.init
    (by decide)⟩

/-- C7: when the 12-bit code of the identification register is none of the
codes the probe has a case for (the remap only turns 0x411 into 0x413, both
supported), the probe returns false and the device record is unchanged: no
flash region, RAM region or command table is added, and idcode and driver
label keep their prior values. -/
theorem stm32f4_probe_unrecognized (K : Consts) (O : Oracle) (t : target) (w : World)
    (hid : u32 (O.mem32 w.nread K.DBGMCU_IDCODE) &&& 0xFFF ∉ probeCodes) :
    (stm32f4_probe K O t w).1 = false ∧ (stm32f4_probe K O t w).2.1 = t := by
  simp only [probeCodes, List.mem_cons, List.mem_singleton, List.not_mem_nil, or_false,
    not_or] at hid
  obtain ⟨h1, h2, h3, h4, h5, h6, h7, h8, h9, h10, h11, h12, h13⟩ := hid
  rw [stm32f4_probe_of_ne K O t w h1]
  simp [stm32f4_probe_switch, ID_STM32F20X, ID_STM32F40X, ID_STM32F42X, ID_STM32F46X,
    ID_STM32F446, ID_STM32F401C, ID_STM32F411, ID_STM32F412, ID_STM32F401E, ID_STM32F413,
    ID_STM32F74X, ID_STM32F76X, ID_STM32F72X, h1, h2, h3, h4, h5, h6, h7, h8, h9, h10, h11,
    h12, h13]

/-- Witness of C7: the identification register reads 0x10006458 (an F410, for
which the probe has no case), on a record that already carries data. -/
theorem stm32f4_probe_unrecognized_witness :
    u32 ((constOracle 0x10006458).mem32 World.init.nread refConsts.DBGMCU_IDCODE) &&& 0xFFF
      ∉ probeCodes ∧
    (stm32f4_probe refConsts (constOracle 0x10006458)
        { blankTarget with idcode := 7, ram := [⟨0x20000000, 0x100⟩] } World.init).1 = false ∧
    (stm32f4_probe refConsts (constOracle 0x10006458)
        { blankTarget with idcode := 7, ram := [⟨0x20000000, 0x100⟩] } World.init).2.1 =
      { blankTarget with idcode := 7, ram := [⟨0x20000000, 0x100⟩] } :=
  ⟨by decide, stm32f4_probe_unrecognized refConsts (constOracle 0x10006458)
    { blankTarget with idcode := 7, ram := [⟨0x20000000, 0x100⟩] } World.init (by decide)⟩

/-! ### Poll loop -/

/-- The register writes of a concatenated log. -/
theorem writesOf_append (xs ys : List Event) : writesOf (xs ++ ys) = writesOf xs ++ writesOf ys := by
  induction xs with
  | nil => rfl
  | cons e es ih => cases e <;> simp [writesOf, ih]

/-- A poll whose first read has the busy bit clear ends there. -/
theorem pollBusy_ready (K : Consts) (O : Oracle) (w : World) (fuel : Nat)
    (h : u32 (O.mem32 w.nread K.FLASH_SR) &&& K.FLASH_SR_BSY = 0) :
    pollBusy K O (fuel + 1) w = some (false, (target_mem_read32 O w K.FLASH_SR).2) := by
  simp [pollBusy, target_mem_read32, h]

/-- A poll whose first read is busy and whose error query reports an error returns. -/
theorem pollBusy_abort (K : Consts) (O : Oracle) (w : World) (fuel : Nat)
    (h : u32 (O.mem32 w.nread K.FLASH_SR) &&& K.FLASH_SR_BSY ≠ 0)
    (he : O.error w.nerr = true) :
    pollBusy K O (fuel + 1) w =
      some (true, (target_check_error O (target_mem_read32 O w K.FLASH_SR).2).2) := by
  simp [pollBusy, target_mem_read32, target_check_error, h, he]

/-- A poll whose first read is busy and whose error query is clean goes round. -/
theorem pollBusy_spin (K : Consts) (O : Oracle) (w : World) (fuel : Nat)
    (h : u32 (O.mem32 w.nread K.FLASH_SR) &&& K.FLASH_SR_BSY ≠ 0)
    (he : O.error w.nerr = false) :
    pollBusy K O (fuel + 1) w =
      pollBusy K O fuel (target_check_error O (target_mem_read32 O w K.FLASH_SR).2).2 := by
  simp [pollBusy, target_mem_read32, target_check_error, h, he]

/-- A poll returns as soon as the fuel exceeds the distance to the next read
with busy clear or to the next reported error; its log is a `PollTrace`. -/
theorem pollBusy_spec (K : Consts) (O : Oracle) : ∀ (d : Nat) (w : World),
    ((∃ j, w.nread ≤ j ∧ j ≤ w.nread + d ∧ u32 (O.mem32 j K.FLASH_SR) &&& K.FLASH_SR_BSY = 0) ∨
      (∃ j, w.nerr ≤ j ∧ j ≤ w.nerr + d ∧ O.error j = true)) →
    ∃ b w1 evs, (∀ fuel, d + 1 ≤ fuel → pollBusy K O fuel w = some (b, w1)) ∧
      w1.trace = w.trace ++ evs ∧ PollTrace K b evs ∧ (b = true → ∃ k, O.error k = true) := by
  intro d
  induction d with
  | zero =>
    intro w h
    by_cases hb : u32 (O.mem32 w.nread K.FLASH_SR) &&& K.FLASH_SR_BSY = 0
    · refine ⟨false, (target_mem_read32 O w K.FLASH_SR).2, _, ?_, rfl, PollTrace.ready _ hb, by simp⟩
      intro fuel hf
      obtain ⟨f, rfl⟩ : ∃ f, fuel = f + 1 := ⟨fuel - 1, by omega⟩
      exact pollBusy_ready K O w f hb
    · have he : O.error w.nerr = true := by
        rcases h with ⟨j, h1, h2, h3⟩ | ⟨j, h1, h2, h3⟩
        · have : j = w.nread := by omega
          subst this; exact absurd h3 hb
        · have : j = w.nerr := by omega
          subst this; exact h3
      refine ⟨true, (target_check_error O (target_mem_read32 O w K.FLASH_SR).2).2, _, ?_, ?_,
        PollTrace.abort _ hb, fun _ => ⟨_, he⟩⟩
      · intro fuel hf
        obtain ⟨f, rfl⟩ : ∃ f, fuel = f + 1 := ⟨fuel - 1, by omega⟩
        exact pollBusy_abort K O w f hb he
      · simp [target_check_error, target_mem_read32, he]
  | succ d ih =>
    intro w h
    by_cases hb : u32 (O.mem32 w.nread K.FLASH_SR) &&& K.FLASH_SR_BSY = 0
    · refine ⟨false, (target_mem_read32 O w K.FLASH_SR).2, _, ?_, rfl, PollTrace.ready _ hb, by simp⟩
      intro fuel hf
      obtain ⟨f, rfl⟩ : ∃ f, fuel = f + 1 := ⟨fuel - 1, by omega⟩
      exact pollBusy_ready K O w f hb
    · by_cases he : O.error w.nerr = true
      · refine ⟨true, (target_check_error O (target_mem_read32 O w K.FLASH_SR).2).2, _, ?_, ?_,
          PollTrace.abort _ hb, fun _ => ⟨_, he⟩⟩
        · intro fuel hf
          obtain ⟨f, rfl⟩ : ∃ f, fuel = f + 1 := ⟨fuel - 1, by omega⟩
          exact pollBusy_abort K O w f hb he
        · simp [target_check_error, target_mem_read32, he]
      · have he' : O.error w.nerr = false := by simpa using he
        obtain ⟨b, w1, evs, hrun, htr, hpt, herr⟩ :=
          ih (target_check_error O (target_mem_read32 O w K.FLASH_SR).2).2 (by
            rcases h with ⟨j, h1, h2, h3⟩ | ⟨j, h1, h2, h3⟩
            · left
              have : j ≠ w.nread := by rintro rfl; exact hb h3
              exact ⟨j, by simp [target_check_error, target_mem_read32]; omega,
                by simp [target_check_error, target_mem_read32]; omega, h3⟩
            · right
              have : j ≠ w.nerr := by rintro rfl; exact he h3
              exact ⟨j, by simp [target_check_error, target_mem_read32]; omega,
                by simp [target_check_error, target_mem_read32]; omega, h3⟩)
        refine ⟨b, w1, _, ?_, ?_, PollTrace.spin _ b evs hb hpt, herr⟩
        · intro fuel hf
          obtain ⟨f, rfl⟩ : ∃ f, fuel = f + 1 := ⟨fuel - 1, by omega⟩
          rw [pollBusy_spin K O w f hb he']
          exact hrun f (by omega)
        · rw [htr]
          simp [target_check_error, target_mem_read32, he']

/-- A poll returns when the device either gets ready again and again or keeps
reporting errors. -/
theorem pollBusy_total (K : Consts) (O : Oracle) (H : Ready K O ∨ ErrorsRecur O) (w : World) :
    ∃ N b w1 evs, (∀ fuel, N ≤ fuel → pollBusy K O fuel w = some (b, w1)) ∧
      w1.trace = w.trace ++ evs ∧ PollTrace K b evs ∧ (b = true → ∃ k, O.error k = true) := by
  rcases H with H | H
  · obtain ⟨j, hj, hb⟩ := H w.nread
    obtain ⟨b, w1, evs, h⟩ :=
      pollBusy_spec K O (j - w.nread) w (Or.inl ⟨j, hj, by omega, hb⟩)
    exact ⟨_, b, w1, evs, h⟩
  · obtain ⟨j, hj, hb⟩ := H w.nerr
    obtain ⟨b, w1, evs, h⟩ :=
      pollBusy_spec K O (j - w.nerr) w (Or.inr ⟨j, hj, by omega, hb⟩)
    exact ⟨_, b, w1, evs, h⟩

/-- A poll writes no register. -/
theorem PollTrace.writesOf_eq {K : Consts} {b : Bool} {evs : List Event}
    (h : PollTrace K b evs) : writesOf evs = [] := by
  induction h with
  | ready v _ => rfl
  | abort v _ => rfl
  | spin v b evs _ _ ih => simpa [writesOf] using ih

/-- A poll that ended with busy clear saw no connection error. -/
theorem PollTrace.not_mem {K : Consts} {b : Bool} {evs : List Event}
    (h : PollTrace K b evs) : b = false → Event.checkError true ∉ evs := by
  induction h with
  | ready v _ => intro _; simp
  | abort v _ => intro hb; cases hb
  | spin v b evs _ _ ih => intro hb; simpa using ih hb

/-- A poll left through the `return` ends with the reported error. -/
theorem PollTrace.ends_abort {K : Consts} {b : Bool} {evs : List Event}
    (h : PollTrace K b evs) : b = true → ∃ pre, evs = pre ++ [Event.checkError true] := by
  induction h with
  | ready v _ => intro hb; cases hb
  | abort v _ => intro _; exact ⟨[_], rfl⟩
  | spin v b evs _ _ ih =>
    intro hb
    obtain ⟨pre, rfl⟩ := ih hb
    exact ⟨_ :: _ :: pre, rfl⟩

/-- A poll that ran to its end ends with a read of `FLASH_SR` with busy clear. -/
theorem PollTrace.ends_ready {K : Consts} {b : Bool} {evs : List Event}
    (h : PollTrace K b evs) : b = false →
      ∃ pre v, evs = pre ++ [Event.read32 K.FLASH_SR v] ∧ v &&& K.FLASH_SR_BSY = 0 := by
  induction h with
  | ready v hv => intro _; exact ⟨[], v, rfl, hv⟩
  | abort v _ => intro hb; cases hb
  | spin v b evs _ _ ih =>
    intro hb
    obtain ⟨pre, v1, rfl, hv⟩ := ih hb
    exact ⟨_ :: _ :: pre, v1, rfl, hv⟩

/-! ### Erase engine -/

/-- A nonzero length below one block rounds up to one block. -/
theorem ceil_div_of_lt (len bs : Nat) (h0 : len ≠ 0) (h : len < bs) :
    (len + bs - 1) / bs = 1 := by
  have h1 : len + bs - 1 = (len - 1) + bs := by omega
  rw [h1, Nat.add_div_right _ (by omega), Nat.div_eq_of_lt (by omega)]

/-- Taking one block off a length takes one off the rounded-up block count. -/
theorem ceil_div_of_ge (len bs : Nat) (hbs : 0 < bs) (h : ¬ len < bs) :
    (len + bs - 1) / bs = (len - bs + bs - 1) / bs + 1 := by
  have h1 : len + bs - 1 = (len - bs + bs - 1) + bs := by omega
  rw [h1, Nat.add_div_right _ hbs]

/-- One round of the erase loop on a nonzero length. -/
theorem eraseLoop_step (K : Consts) (O : Oracle) (bs fuel : Nat) (w : World) (len sector : Nat)
    (hl : len ≠ 0) :
    eraseLoop K O bs (fuel + 1) w len sector =
      match pollBusy K O fuel (target_mem_write32 (target_mem_write32 w K.FLASH_CR
          (eraseCmd K sector)) K.FLASH_CR (eraseCmd K sector ||| K.FLASH_CR_STRT)) with
      | none => none
      | some (true, w3) => some (true, w3)
      | some (false, w3) =>
        if len < bs then some (false, w3)
        else eraseLoop K O bs fuel w3 (len - bs) (u8 (sector + 1)) := by
  simp only [eraseLoop, if_neg hl, eraseCmd]

/-- The erase loop returns; it is left through `return -1` only after a reported
error, which is then its last access; otherwise it saw no error and wrote the
command pairs of `ceil(len / blocksize)` sectors. -/
theorem eraseLoop_spec (K : Consts) (O : Oracle) (bs : Nat) (hbs : 0 < bs)
    (H : Ready K O ∨ ErrorsRecur O) :
    ∀ (len : Nat) (w : World) (sector : Nat),
    ∃ N b w1 evs, (∀ fuel, N ≤ fuel → eraseLoop K O bs fuel w len sector = some (b, w1)) ∧
      w1.trace = w.trace ++ evs ∧
      (b = true → (∃ pre, evs = pre ++ [Event.checkError true]) ∧ ∃ k, O.error k = true) ∧
      (b = false → Event.checkError true ∉ evs ∧
        writesOf evs = eraseCmds K ((len + bs - 1) / bs) sector) := by
  intro len
  induction len using Nat.strong_induction_on with
  | _ len ih =>
    intro w sector
    by_cases hl : len = 0
    · subst hl
      refine ⟨1, false, w, [], ?_, by simp, by simp, ?_⟩
      · intro fuel hf
        obtain ⟨f, rfl⟩ : ∃ f, fuel = f + 1 := ⟨fuel - 1, by omega⟩
        simp [eraseLoop]
      · intro _
        have : (0 + bs - 1) / bs = 0 := Nat.div_eq_of_lt (by omega)
        rw [this]
        simp [eraseCmds, writesOf]
    · obtain ⟨N1, b, w3, pevs, hrun, htr, hpt, herr⟩ := pollBusy_total K O H
        (target_mem_write32 (target_mem_write32 w K.FLASH_CR (eraseCmd K sector)) K.FLASH_CR
          (eraseCmd K sector ||| K.FLASH_CR_STRT))
      have htr3 : w3.trace = w.trace ++ ([Event.write32 K.FLASH_CR (eraseCmd K sector),
          Event.write32 K.FLASH_CR (eraseCmd K sector ||| K.FLASH_CR_STRT)] ++ pevs) := by
        rw [htr]; simp [target_mem_write32]
      cases b with
      | true =>
        refine ⟨N1 + 1, true, w3, _, ?_, htr3, ?_, by simp⟩
        · intro fuel hf
          obtain ⟨f, rfl⟩ : ∃ f, fuel = f + 1 := ⟨fuel - 1, by omega⟩
          rw [eraseLoop_step K O bs f w len sector hl, hrun f (by omega)]
        · intro _
          obtain ⟨pre, hpre⟩ := hpt.ends_abort rfl
          exact ⟨⟨_ :: _ :: pre, by rw [hpre]; rfl⟩, herr rfl⟩
      | false =>
        by_cases hlt : len < bs
        · refine ⟨N1 + 1, false, w3, _, ?_, htr3, by simp, ?_⟩
          · intro fuel hf
            obtain ⟨f, rfl⟩ : ∃ f, fuel = f + 1 := ⟨fuel - 1, by omega⟩
            rw [eraseLoop_step K O bs f w len sector hl, hrun f (by omega)]
            simp [hlt]
          · intro _
            refine ⟨?_, ?_⟩
            · have := hpt.not_mem rfl
              simpa using this
            · rw [ceil_div_of_lt len bs hl hlt]
              simp [writesOf_append, writesOf, hpt.writesOf_eq, eraseCmds, erasePair]
        · obtain ⟨N2, b2, w4, evs2, hrun2, htr2, hT, hF⟩ :=
            ih (len - bs) (by omega) w3 (u8 (sector + 1))
          refine ⟨max N1 N2 + 1, b2, w4, ([Event.write32 K.FLASH_CR (eraseCmd K sector),
            Event.write32 K.FLASH_CR (eraseCmd K sector ||| K.FLASH_CR_STRT)] ++ pevs) ++ evs2,
            ?_, ?_, ?_, ?_⟩
          · intro fuel hf
            obtain ⟨f, rfl⟩ : ∃ f, fuel = f + 1 := ⟨fuel - 1, by omega⟩
            rw [eraseLoop_step K O bs f w len sector hl, hrun f (by omega)]
            simp only [if_neg hlt]
            exact hrun2 f (by omega)
          · rw [htr2, htr3, List.append_assoc]
          · intro hb
            obtain ⟨⟨pre, hpre⟩, hk⟩ := hT hb
            exact ⟨⟨([Event.write32 K.FLASH_CR (eraseCmd K sector),
              Event.write32 K.FLASH_CR (eraseCmd K sector ||| K.FLASH_CR_STRT)] ++ pevs) ++ pre,
              by rw [hpre]; simp⟩, hk⟩
          · intro hb
            obtain ⟨h1, h2⟩ := hF hb
            refine ⟨?_, ?_⟩
            · have := hpt.not_mem rfl
              simp [this, h1]
            · rw [ceil_div_of_ge len bs hbs hlt, writesOf_append, h2]
              simp [writesOf_append, writesOf, hpt.writesOf_eq, eraseCmds, erasePair]

/-- The command pairs of `n` sectors from `sector` on, sector by sector. -/
theorem eraseCmds_eq_flatMap (K : Consts) : ∀ (n sector : Nat), sector < 256 →
    eraseCmds K n sector = (List.range n).flatMap (fun i => erasePair K (u8 (sector + i))) := by
  intro n
  induction n with
  | zero => intro sector _; rfl
  | succ n ih =>
    intro sector hs
    have h0 : u8 (sector + 0) = sector := by simp [u8]; omega
    have hstep : ∀ i, u8 (u8 (sector + 1) + i) = u8 (sector + (i + 1)) := by
      intro i; simp only [u8]; omega
    rw [eraseCmds, ih (u8 (sector + 1)) (by simp only [u8]; omega), List.range_succ_eq_map,
      List.flatMap_cons, List.flatMap_map, h0]
    simp only [hstep, Nat.succ_eq_add_one]

/-- Every erase command goes to `FLASH_CR`. -/
theorem filter_eraseCmds (K : Consts) : ∀ (n sector : Nat),
    (eraseCmds K n sector).filter (fun p => decide (p.1 = K.FLASH_CR)) = eraseCmds K n sector := by
  intro n
  induction n with
  | zero => intro sector; rfl
  | succ n ih => intro sector; simp [eraseCmds, erasePair, ih]

/-- The unlock reads `FLASH_CR` and writes nothing but the two keys to
`FLASH_KEYR`. -/
theorem stm32f4_flash_unlock_trace (K : Consts) (O : Oracle) (w : World) :
    ∃ uevs, (stm32f4_flash_unlock K O w).trace = w.trace ++ uevs ∧
      Event.checkError true ∉ uevs ∧ uevs ≠ [] ∧
      (K.FLASH_KEYR ≠ K.FLASH_CR →
        (writesOf uevs).filter (fun p => decide (p.1 = K.FLASH_CR)) = []) := by
  unfold stm32f4_flash_unlock
  by_cases h : u32 (O.mem32 w.nread K.FLASH_CR) &&& K.FLASH_CR_LOCK ≠ 0
  · refine ⟨[Event.read32 K.FLASH_CR (u32 (O.mem32 w.nread K.FLASH_CR)),
      Event.write32 K.FLASH_KEYR K.KEY1, Event.write32 K.FLASH_KEYR K.KEY2], ?_, by simp,
      by simp, ?_⟩
    · simp [target_mem_read32, target_mem_write32, h]
    · intro hk; simp [writesOf, hk]
  · refine ⟨[Event.read32 K.FLASH_CR (u32 (O.mem32 w.nread K.FLASH_CR))], ?_, by simp,
      by simp, ?_⟩
    · simp [target_mem_read32, h]
    · intro _; simp [writesOf]

/-- The erase on a nonzero block size: unlock, loop, then the status check. -/
theorem stm32f4_flash_erase_eq (K : Consts) (O : Oracle) (fuel : Nat) (f : stm32f4_flash)
    (addr len : Nat) (w : World) (hbs : 0 < f.blocksize) :
    stm32f4_flash_erase K O fuel f addr len w =
      match eraseLoop K O f.blocksize fuel (stm32f4_flash_unlock K O w) len
          (u8 (f.base_sector + u32 (u32 addr + 2 ^ 32 - u32 f.start) / f.blocksize)) with
      | none => none
      | some (true, w2) => some (-1, w2)
      | some (false, w2) =>
        if u16 (u32 (O.mem32 w2.nread K.FLASH_SR)) &&& K.SR_ERROR_MASK ≠ 0 then
          some (-1, (target_mem_read32 O w2 K.FLASH_SR).2)
        else some (0, (target_mem_read32 O w2 K.FLASH_SR).2) := by
  have h : f.blocksize ≠ 0 := by omega
  simp only [stm32f4_flash_erase, if_neg h, target_mem_read32]

/-- Truncation to 16 bits does not change the bits under a 16-bit mask. -/
theorem u16_land_mask (v m : Nat) (hm : m < 2 ^ 16) : u16 v &&& m = v &&& m := by
  unfold u16
  rw [← Nat.and_pow_two_sub_one_eq_mod, Nat.and_assoc]
  congr 1
  rw [Nat.and_comm]
  exact Nat.and_pow_two_sub_one_of_lt_two_pow hm

/-- C1: for every region with a nonzero block size, every 32-bit address at or
above the region start and every length, when every busy poll eventually
reads not-busy and no connection error is reported, `stm32f4_flash_erase`
returns, and its writes to `FLASH_CR` are exactly `ceil(len / blocksize)`
command pairs `(cr, cr | FLASH_CR_STRT)`,
`cr = FLASH_CR_EOPIE | FLASH_CR_ERRIE | FLASH_CR_SER | (sector << 3)`, for the
sectors `s0, s0 + 1, ...` counted in 8 bits, in this order, where
`s0 = base_sector + (addr - start) / blocksize`. -/
theorem stm32f4_flash_erase_commands (K : Consts) (O : Oracle) (f : stm32f4_flash)
    (addr len : Nat) (w : World)
    (hbs : 0 < f.blocksize) (hstart : f.start ≤ addr) (haddr : addr < 2 ^ 32)
    (hkey : K.FLASH_KEYR ≠ K.FLASH_CR) (hready : Ready K O) (hnoerr : NoError O) :
    ∃ N r w1 evs,
      (∀ fuel, N ≤ fuel → stm32f4_flash_erase K O fuel f addr len w = some (r, w1)) ∧
      w1.trace = w.trace ++ evs ∧
      (writesOf evs).filter (fun p => decide (p.1 = K.FLASH_CR)) =
        (List.range ((len + f.blocksize - 1) / f.blocksize)).flatMap (fun i =>
          erasePair K (u8 (u8 (f.base_sector + (addr - f.start) / f.blocksize) + i))) := by
  obtain ⟨uevs, hu, -, -, hufilter⟩ := stm32f4_flash_unlock_trace K O w
  have hsec : u32 (u32 addr + 2 ^ 32 - u32 f.start) = addr - f.start := by
    have h1 : u32 addr = addr := Nat.mod_eq_of_lt haddr
    have h2 : u32 f.start = f.start := Nat.mod_eq_of_lt (by omega)
    rw [h1, h2]
    unfold u32
    have : addr + 2 ^ 32 - f.start = (addr - f.start) + 2 ^ 32 := by omega
    rw [this, Nat.add_mod_right]
    exact Nat.mod_eq_of_lt (by omega)
  obtain ⟨N, b, w2, evs, hrun, htr, hT, hF⟩ := eraseLoop_spec K O f.blocksize hbs (Or.inl hready)
    len (stm32f4_flash_unlock K O w) (u8 (f.base_sector + (addr - f.start) / f.blocksize))
  have hb : b = false := by
    cases b with
    | false => rfl
    | true =>
      obtain ⟨-, k, hk⟩ := hT rfl
      rw [hnoerr k] at hk
      cases hk
  subst hb
  obtain ⟨-, hw⟩ := hF rfl
  refine ⟨N, if u16 (u32 (O.mem32 w2.nread K.FLASH_SR)) &&& K.SR_ERROR_MASK ≠ 0 then -1 else 0,
    (target_mem_read32 O w2 K.FLASH_SR).2,
    uevs ++ evs ++ [Event.read32 K.FLASH_SR (u32 (O.mem32 w2.nread K.FLASH_SR))], ?_, ?_, ?_⟩
  · intro fuel hf
    rw [stm32f4_flash_erase_eq K O fuel f addr len w hbs, hsec, hrun fuel hf]
    simp only
    split <;> rfl
  · simp [target_mem_read32, htr, hu]
  · rw [writesOf_append, writesOf_append, hw, List.filter_append, List.filter_append,
      hufilter hkey, filter_eraseCmds]
    simp [writesOf, eraseCmds_eq_flatMap K _ _ (show u8 (f.base_sector +
      (addr - f.start) / f.blocksize) < 256 from Nat.mod_lt _ (by decide))]

/-- C2: `stm32f4_flash_erase` returns, and either its log contains a reported
connection error, which is then the last access of the call and the result is
-1 (failure, immediately), or all polls completed without a connection error,
the last access is the one read of `FLASH_SR` after the loop, and the result
is -1 exactly when that value has a bit of `SR_ERROR_MASK` set (0 otherwise). -/
theorem stm32f4_flash_erase_result (K : Consts) (O : Oracle) (f : stm32f4_flash)
    (addr len : Nat) (w : World)
    (hbs : 0 < f.blocksize) (hmask : K.SR_ERROR_MASK < 2 ^ 16)
    (H : Ready K O ∨ ErrorsRecur O) :
    ∃ N r w1 evs,
      (∀ fuel, N ≤ fuel → stm32f4_flash_erase K O fuel f addr len w = some (r, w1)) ∧
      w1.trace = w.trace ++ evs ∧
      ((Event.checkError true ∈ evs ∧ evs.getLast? = some (Event.checkError true) ∧ r = -1) ∨
       (Event.checkError true ∉ evs ∧ ∃ v, evs.getLast? = some (Event.read32 K.FLASH_SR v) ∧
          (r = -1 ↔ v &&& K.SR_ERROR_MASK ≠ 0) ∧ (r = 0 ↔ v &&& K.SR_ERROR_MASK = 0))) := by
  obtain ⟨uevs, hu, hune, -, -⟩ := stm32f4_flash_unlock_trace K O w
  obtain ⟨N, b, w2, evs, hrun, htr, hT, hF⟩ := eraseLoop_spec K O f.blocksize hbs H
    len (stm32f4_flash_unlock K O w)
    (u8 (f.base_sector + u32 (u32 addr + 2 ^ 32 - u32 f.start) / f.blocksize))
  cases b with
  | true =>
    obtain ⟨⟨pre, hpre⟩, -⟩ := hT rfl
    refine ⟨N, -1, w2, uevs ++ evs, ?_, by rw [htr, hu, List.append_assoc], Or.inl ⟨?_, ?_, rfl⟩⟩
    · intro fuel hf
      rw [stm32f4_flash_erase_eq K O fuel f addr len w hbs, hrun fuel hf]
    · simp [hpre]
    · rw [hpre, ← List.append_assoc, List.getLast?_concat]
  | false =>
    obtain ⟨hnm, -⟩ := hF rfl
    refine ⟨N, if u16 (u32 (O.mem32 w2.nread K.FLASH_SR)) &&& K.SR_ERROR_MASK ≠ 0 then -1 else 0,
      (target_mem_read32 O w2 K.FLASH_SR).2,
      uevs ++ evs ++ [Event.read32 K.FLASH_SR (u32 (O.mem32 w2.nread K.FLASH_SR))], ?_, ?_,
      Or.inr ⟨?_, _, List.getLast?_concat _, ?_, ?_⟩⟩
    · intro fuel hf
      rw [stm32f4_flash_erase_eq K O fuel f addr len w hbs, hrun fuel hf]
      simp only
      split <;> rfl
    · simp [target_mem_read32, htr, hu]
    · simp [hune, hnm]
    · rw [u16_land_mask _ _ hmask]
      split <;> simp_all
    · rw [u16_land_mask _ _ hmask]
      split <;> simp_all

/-- The pulsing device is ready at every third read. -/
theorem pulseOracle_ready : Ready refConsts pulseOracle := by
  intro k
  exact ⟨3 * k, by omega, by simp [pulseOracle, u32]⟩

/-- Witness of C1: erasing 0x6000 bytes from 0x8004000 in the first region of the
common base, on a device that is busy at two reads out of three. -/
theorem stm32f4_flash_erase_commands_witness :
    0 < (mkFlash 0x8000000 0x10000 0x4000 0).blocksize ∧
    (mkFlash 0x8000000 0x10000 0x4000 0).start ≤ 0x8004000 ∧ 0x8004000 < 2 ^ 32 ∧
    refConsts.FLASH_KEYR ≠ refConsts.FLASH_CR ∧ Ready refConsts pulseOracle ∧
    NoError pulseOracle ∧
    ∃ N r w1 evs,
      (∀ fuel, N ≤ fuel → stm32f4_flash_erase refConsts pulseOracle fuel
        (mkFlash 0x8000000 0x10000 0x4000 0) 0x8004000 0x6000 World.init = some (r, w1)) ∧
      w1.trace = World.init.trace ++ evs ∧
      (writesOf evs).filter (fun p => decide (p.1 = refConsts.FLASH_CR)) =
        (List.range ((0x6000 + (mkFlash 0x8000000 0x10000 0x4000 0).blocksize - 1) /
            (mkFlash 0x8000000 0x10000 0x4000 0).blocksize)).flatMap (fun i =>
          erasePair refConsts (u8 (u8 ((mkFlash 0x8000000 0x10000 0x4000 0).base_sector +
            (0x8004000 - (mkFlash 0x8000000 0x10000 0x4000 0).start) /
              (mkFlash 0x8000000 0x10000 0x4000 0).blocksize) + i))) :=
  ⟨by decide, by decide, by decide, by decide, pulseOracle_ready, fun _ => rfl,
    stm32f4_flash_erase_commands refConsts pulseOracle (mkFlash 0x8000000 0x10000 0x4000 0)
      0x8004000 0x6000 World.init (by decide) (by decide) (by decide) (by decide)
      pulseOracle_ready (fun _ => rfl)⟩

/-- Witness of C2: the same erase as for C1. -/
theorem stm32f4_flash_erase_result_witness :
    0 < (mkFlash 0x8000000 0x10000 0x4000 0).blocksize ∧ refConsts.SR_ERROR_MASK < 2 ^ 16 ∧
    (Ready refConsts pulseOracle ∨ ErrorsRecur pulseOracle) ∧
    ∃ N r w1 evs,
      (∀ fuel, N ≤ fuel → stm32f4_flash_erase refConsts pulseOracle fuel
        (mkFlash 0x8000000 0x10000 0x4000 0) 0x8004000 0x6000 World.init = some (r, w1)) ∧
      w1.trace = World.init.trace ++ evs ∧
      ((Event.checkError true ∈ evs ∧ evs.getLast? = some (Event.checkError true) ∧ r = -1) ∨
       (Event.checkError true ∉ evs ∧
        ∃ v, evs.getLast? = some (Event.read32 refConsts.FLASH_SR v) ∧
          (r = -1 ↔ v &&& refConsts.SR_ERROR_MASK ≠ 0) ∧
          (r = 0 ↔ v &&& refConsts.SR_ERROR_MASK = 0))) :=
  ⟨by decide, by decide, Or.inl pulseOracle_ready,
    stm32f4_flash_erase_result refConsts pulseOracle (mkFlash 0x8000000 0x10000 0x4000 0)
      0x8004000 0x6000 World.init (by decide) (by decide) (Or.inl pulseOracle_ready)⟩

/-! ### Write path -/

/-- C3: with the alias window at 0x0200000 and the primary-bus base at
0x8000000, for a 32-bit destination inside the alias window
`stm32f4_flash_write` runs the stub with destination
`AXIM_BASE + (dest - ITCM_BASE)`, and for a destination at or above
`AXIM_BASE` with the destination unmodified; in both cases the accesses of the
call are exactly: the stub blob written to `SRAM_BASE`, the payload written to
`STUB_BUFFER_BASE`, then the stub run with `(destination, STUB_BUFFER_BASE,
len, 0)`; the call returns the exit code of the stub. -/
theorem stm32f4_flash_write_rebase (K : Consts) (O : Oracle) (f : stm32f4_flash)
    (dest : Nat) (src : List Nat) (len : Nat) (w : World)
    (hI : K.ITCM_BASE = 0x0200000) (hA : K.AXIM_BASE = 0x8000000) (hd : dest < 2 ^ 32) :
    (K.ITCM_BASE ≤ dest ∧ dest < K.AXIM_BASE →
      (stm32f4_flash_write K O f dest src len w).2.trace = w.trace ++
        [Event.memWrite K.SRAM_BASE
            (if f.psize = 32 then K.stm32f4_flash_write_x32_stub
              else K.stm32f4_flash_write_x8_stub)
            (if f.psize = 32 then K.stm32f4_flash_write_x32_stub.length
              else K.stm32f4_flash_write_x8_stub.length),
          Event.memWrite K.STUB_BUFFER_BASE src len,
          Event.runStub K.SRAM_BASE (K.AXIM_BASE + (dest - K.ITCM_BASE)) K.STUB_BUFFER_BASE
            len 0 (O.stub w.nstub)]) ∧
    (K.AXIM_BASE ≤ dest →
      (stm32f4_flash_write K O f dest src len w).2.trace = w.trace ++
        [Event.memWrite K.SRAM_BASE
            (if f.psize = 32 then K.stm32f4_flash_write_x32_stub
              else K.stm32f4_flash_write_x8_stub)
            (if f.psize = 32 then K.stm32f4_flash_write_x32_stub.length
              else K.stm32f4_flash_write_x8_stub.length),
          Event.memWrite K.STUB_BUFFER_BASE src len,
          Event.runStub K.SRAM_BASE dest K.STUB_BUFFER_BASE len 0 (O.stub w.nstub)]) ∧
    (stm32f4_flash_write K O f dest src len w).1 = O.stub w.nstub := by
  have hd0 : u32 dest = dest := Nat.mod_eq_of_lt hd
  refine ⟨?_, ?_, ?_⟩
  · intro h
    have hr : u32 (K.AXIM_BASE + (dest - K.ITCM_BASE)) = K.AXIM_BASE + (dest - K.ITCM_BASE) := by
      apply Nat.mod_eq_of_lt; omega
    simp only [stm32f4_flash_write, hd0, if_pos h, hr, cortexm_run_stub, target_mem_write]
    split <;> simp
  · intro h
    have hn : ¬ (K.ITCM_BASE ≤ dest ∧ dest < K.AXIM_BASE) := by omega
    simp only [stm32f4_flash_write, hd0, if_neg hn, cortexm_run_stub, target_mem_write]
    split <;> simp
  · simp only [stm32f4_flash_write, cortexm_run_stub, target_mem_write]
    split <;> rfl

/-- Witness of C3: a write to 0x0220004, inside the alias window. -/
theorem stm32f4_flash_write_rebase_witness :
    refConsts.ITCM_BASE = 0x0200000 ∧ refConsts.AXIM_BASE = 0x8000000 ∧ 0x0220004 < 2 ^ 32 ∧
    (refConsts.ITCM_BASE ≤ 0x0220004 ∧ 0x0220004 < refConsts.AXIM_BASE) ∧
    (stm32f4_flash_write refConsts (constOracle 0) (mkFlash 0x0220000 0x20000 0x20000 4)
        0x0220004 [1, 2, 3, 4] 4 World.init).2.trace = World.init.trace ++
      [Event.memWrite refConsts.SRAM_BASE
          (if (mkFlash 0x0220000 0x20000 0x20000 4).psize = 32
            then refConsts.stm32f4_flash_write_x32_stub
            else refConsts.stm32f4_flash_write_x8_stub)
          (if (mkFlash 0x0220000 0x20000 0x20000 4).psize = 32
            then refConsts.stm32f4_flash_write_x32_stub.length
            else refConsts.stm32f4_flash_write_x8_stub.length),
        Event.memWrite refConsts.STUB_BUFFER_BASE [1, 2, 3, 4] 4,
        Event.runStub refConsts.SRAM_BASE (refConsts.AXIM_BASE + (0x0220004 - refConsts.ITCM_BASE))
          refConsts.STUB_BUFFER_BASE 4 0 ((constOracle 0).stub World.init.nstub)] :=
  ⟨rfl, rfl, by decide, by decide,
    (stm32f4_flash_write_rebase refConsts (constOracle 0) (mkFlash 0x0220000 0x20000 0x20000 4)
      0x0220004 [1, 2, 3, 4] 4 World.init rfl rfl (by decide)).1 (by decide)⟩



/-! ### Option bytes -/

/-- On a device that gets ready and reports no error a poll ends with busy clear. -/
theorem pollBusy_noerr (K : Consts) (O : Oracle) (hready : Ready K O) (hnoerr : NoError O)
    (w : World) :
    ∃ N w1 evs, (∀ fuel, N ≤ fuel → pollBusy K O fuel w = some (false, w1)) ∧
      w1.trace = w.trace ++ evs ∧ PollTrace K false evs := by
  obtain ⟨N, b, w1, evs, hrun, htr, hpt, herr⟩ := pollBusy_total K O (Or.inl hready) w
  cases b with
  | false => exact ⟨N, w1, evs, hrun, htr, hpt⟩
  | true =>
    obtain ⟨k, hk⟩ := herr rfl
    rw [hnoerr k] at hk
    cases hk

/-- The access log of `stm32f4_option_write` on a device that gets ready and
reports no error. -/
theorem stm32f4_option_write_trace (K : Consts) (O : Oracle) (t : target)
    (val : OptionWords) (count : Int) (w : World)
    (hready : Ready K O) (hnoerr : NoError O) :
    ∃ N w1 poll1 poll2,
      (∀ fuel, N ≤ fuel → stm32f4_option_write K O fuel t val count w = some (true, w1)) ∧
      w1.trace = w.trace ++
        ([Event.write32 K.FLASH_OPTKEYR K.OPTKEY1, Event.write32 K.FLASH_OPTKEYR K.OPTKEY2] ++
          poll1 ++
          (if (t.idcode = ID_STM32F42X ∨ t.idcode = ID_STM32F46X ∨ t.idcode = ID_STM32F72X ∨
              t.idcode = ID_STM32F74X ∨ t.idcode = ID_STM32F76X) ∧ count > 1
            then [Event.write32 (K.FLASH_OPTCR + 4) val.v1] else []) ++
          (if t.idcode = ID_STM32F72X ∧ count > 2
            then [Event.write32 (K.FLASH_OPTCR + 8) val.v2] else []) ++
          [Event.write32 K.FLASH_OPTCR val.v0,
            Event.write32 K.FLASH_OPTCR (val.v0 ||| K.FLASH_OPTCR_OPTSTRT)] ++
          poll2 ++
          [Event.write32 K.FLASH_OPTCR K.FLASH_OPTCR_OPTLOCK]) ∧
      PollTrace K false poll1 ∧ PollTrace K false poll2 ∧
      writesOf poll1 = [] ∧ writesOf poll2 = [] := by
  obtain ⟨N1, w3, poll1, hrun1, htr1, hp1⟩ := pollBusy_noerr K O hready hnoerr
    (target_mem_write32 (target_mem_write32 w K.FLASH_OPTKEYR K.OPTKEY1) K.FLASH_OPTKEYR
      K.OPTKEY2)
  generalize hw5 : (if t.idcode = ID_STM32F72X ∧ count > 2 then
      target_mem_write32 (if (t.idcode = ID_STM32F42X ∨ t.idcode = ID_STM32F46X ∨
          t.idcode = ID_STM32F72X ∨ t.idcode = ID_STM32F74X ∨ t.idcode = ID_STM32F76X) ∧
          count > 1 then target_mem_write32 w3 (K.FLASH_OPTCR + 4) val.v1 else w3)
        (K.FLASH_OPTCR + 8) val.v2
      else (if (t.idcode = ID_STM32F42X ∨ t.idcode = ID_STM32F46X ∨
          t.idcode = ID_STM32F72X ∨ t.idcode = ID_STM32F74X ∨ t.idcode = ID_STM32F76X) ∧
          count > 1 then target_mem_write32 w3 (K.FLASH_OPTCR + 4) val.v1 else w3)) = w5
  obtain ⟨N2, w8, poll2, hrun2, htr2, hp2⟩ := pollBusy_noerr K O hready hnoerr
    (target_mem_write32 (target_mem_write32 w5 K.FLASH_OPTCR val.v0) K.FLASH_OPTCR
      (val.v0 ||| K.FLASH_OPTCR_OPTSTRT))
  refine ⟨max N1 N2, target_mem_write32 w8 K.FLASH_OPTCR K.FLASH_OPTCR_OPTLOCK, poll1, poll2,
    ?_, ?_, hp1, hp2, hp1.writesOf_eq, hp2.writesOf_eq⟩
  · intro fuel hf
    simp only [stm32f4_option_write, hrun1 fuel (by omega), hw5, hrun2 fuel (by omega)]
  · subst hw5
    have hfin : ∀ (a b : List Event) (w5 : World), w5.trace = w3.trace ++ a ++ b →
        (target_mem_write32 (target_mem_write32 w5 K.FLASH_OPTCR val.v0) K.FLASH_OPTCR
          (val.v0 ||| K.FLASH_OPTCR_OPTSTRT)).trace ++ poll2 ++
          [Event.write32 K.FLASH_OPTCR K.FLASH_OPTCR_OPTLOCK] =
        w.trace ++ ([Event.write32 K.FLASH_OPTKEYR K.OPTKEY1,
          Event.write32 K.FLASH_OPTKEYR K.OPTKEY2] ++ poll1 ++ a ++ b ++
          [Event.write32 K.FLASH_OPTCR val.v0,
            Event.write32 K.FLASH_OPTCR (val.v0 ||| K.FLASH_OPTCR_OPTSTRT)] ++ poll2 ++
          [Event.write32 K.FLASH_OPTCR K.FLASH_OPTCR_OPTLOCK]) := by
      intro a b w5 h5
      simp [target_mem_write32, h5, htr1]
    have hlock : (target_mem_write32 w8 K.FLASH_OPTCR K.FLASH_OPTCR_OPTLOCK).trace =
        w8.trace ++ [Event.write32 K.FLASH_OPTCR K.FLASH_OPTCR_OPTLOCK] := rfl
    rw [hlock, htr2]
    by_cases c1 : (t.idcode = ID_STM32F42X ∨ t.idcode = ID_STM32F46X ∨
        t.idcode = ID_STM32F72X ∨ t.idcode = ID_STM32F74X ∨ t.idcode = ID_STM32F76X) ∧
        count > 1
    · by_cases c2 : t.idcode = ID_STM32F72X ∧ count > 2
      · rw [if_pos c1, if_pos c2, if_pos c1, if_pos c2]
        exact hfin _ _ _ (by simp [target_mem_write32])
      · rw [if_pos c1, if_neg c2, if_pos c1, if_neg c2]
        exact hfin _ _ _ (by simp [target_mem_write32])
    · by_cases c2 : t.idcode = ID_STM32F72X ∧ count > 2
      · rw [if_neg c1, if_pos c2, if_neg c1, if_pos c2]
        exact hfin _ _ _ (by simp [target_mem_write32])
      · rw [if_neg c1, if_neg c2, if_neg c1, if_neg c2]
        exact hfin _ _ _ (by simp)

/-- C9: when every busy poll eventually reads not-busy and no connection error
is reported, `stm32f4_option_write` returns true and its accesses are exactly:
`OPTKEY1` then `OPTKEY2` to `FLASH_OPTKEYR`; a poll; `val[1]` to
`FLASH_OPTCR + 4` (only on F42x, F46x, F72x, F74x, F76x and `count > 1`);
`val[2]` to `FLASH_OPTCR + 8` (only on F72x and `count > 2`); `val[0]` to
`FLASH_OPTCR`; `val[0] | FLASH_OPTCR_OPTSTRT` to `FLASH_OPTCR`; a poll that
ends with busy clear; `FLASH_OPTCR_OPTLOCK` to `FLASH_OPTCR`.  The polls
contain no write: the register writes of the call are exactly
`optionWriteSequence`, in which every auxiliary word precedes the primary word. -/
theorem stm32f4_option_write_sequence (K : Consts) (O : Oracle) (t : target)
    (val : OptionWords) (count : Int) (w : World)
    (hready : Ready K O) (hnoerr : NoError O) :
    ∃ N w1 evs poll1 poll2,
      (∀ fuel, N ≤ fuel → stm32f4_option_write K O fuel t val count w = some (true, w1)) ∧
      w1.trace = w.trace ++ evs ∧
      evs =
        [Event.write32 K.FLASH_OPTKEYR K.OPTKEY1, Event.write32 K.FLASH_OPTKEYR K.OPTKEY2] ++
          poll1 ++
          (if (t.idcode = ID_STM32F42X ∨ t.idcode = ID_STM32F46X ∨ t.idcode = ID_STM32F72X ∨
              t.idcode = ID_STM32F74X ∨ t.idcode = ID_STM32F76X) ∧ count > 1
            then [Event.write32 (K.FLASH_OPTCR + 4) val.v1] else []) ++
          (if t.idcode = ID_STM32F72X ∧ count > 2
            then [Event.write32 (K.FLASH_OPTCR + 8) val.v2] else []) ++
          [Event.write32 K.FLASH_OPTCR val.v0,
            Event.write32 K.FLASH_OPTCR (val.v0 ||| K.FLASH_OPTCR_OPTSTRT)] ++
          poll2 ++
          [Event.write32 K.FLASH_OPTCR K.FLASH_OPTCR_OPTLOCK] ∧
      PollTrace K false poll1 ∧ PollTrace K false poll2 ∧
      writesOf evs = optionWriteSequence K t val count := by
  obtain ⟨N, w1, poll1, poll2, hrun, htr, hp1, hp2, hw1, hw2⟩ :=
    stm32f4_option_write_trace K O t val count w hready hnoerr
  refine ⟨N, w1, _, poll1, poll2, hrun, htr, rfl, hp1, hp2, ?_⟩
  simp only [writesOf_append, hw1, hw2, optionWriteSequence]
  by_cases c1 : (t.idcode = ID_STM32F42X ∨ t.idcode = ID_STM32F46X ∨
      t.idcode = ID_STM32F72X ∨ t.idcode = ID_STM32F74X ∨ t.idcode = ID_STM32F76X) ∧
      count > 1
  · by_cases c2 : t.idcode = ID_STM32F72X ∧ count > 2
    · rw [if_pos c1, if_pos c2, if_pos c1, if_pos c2]; rfl
    · rw [if_pos c1, if_neg c2, if_pos c1, if_neg c2]; rfl
  · by_cases c2 : t.idcode = ID_STM32F72X ∧ count > 2
    · rw [if_neg c1, if_pos c2, if_neg c1, if_pos c2]; rfl
    · rw [if_neg c1, if_neg c2, if_neg c1, if_neg c2]; rfl

/-- Witness of C9: three option words written on an F72x. -/
theorem stm32f4_option_write_sequence_witness :
    Ready refConsts pulseOracle ∧ NoError pulseOracle ∧
    ∃ N w1 evs poll1 poll2,
      (∀ fuel, N ≤ fuel → stm32f4_option_write refConsts pulseOracle fuel
        f72xTarget ⟨0xC0FFAAFD, 0x00400080, 0⟩ 3 World.init = some (true, w1)) ∧
      w1.trace = World.init.trace ++ evs ∧
      evs =
        [Event.write32 refConsts.FLASH_OPTKEYR refConsts.OPTKEY1,
            Event.write32 refConsts.FLASH_OPTKEYR refConsts.OPTKEY2] ++
          poll1 ++
          (if (f72xTarget.idcode = ID_STM32F42X ∨ f72xTarget.idcode = ID_STM32F46X ∨
              f72xTarget.idcode = ID_STM32F72X ∨ f72xTarget.idcode = ID_STM32F74X ∨
              f72xTarget.idcode = ID_STM32F76X) ∧ (3 : Int) > 1
            then [Event.write32 (refConsts.FLASH_OPTCR + 4)
              (⟨0xC0FFAAFD, 0x00400080, 0⟩ : OptionWords).v1] else []) ++
          (if f72xTarget.idcode = ID_STM32F72X ∧ (3 : Int) > 2
            then [Event.write32 (refConsts.FLASH_OPTCR + 8)
              (⟨0xC0FFAAFD, 0x00400080, 0⟩ : OptionWords).v2] else []) ++
          [Event.write32 refConsts.FLASH_OPTCR (⟨0xC0FFAAFD, 0x00400080, 0⟩ : OptionWords).v0,
            Event.write32 refConsts.FLASH_OPTCR
              ((⟨0xC0FFAAFD, 0x00400080, 0⟩ : OptionWords).v0 |||
                refConsts.FLASH_OPTCR_OPTSTRT)] ++
          poll2 ++
          [Event.write32 refConsts.FLASH_OPTCR refConsts.FLASH_OPTCR_OPTLOCK] ∧
      PollTrace refConsts false poll1 ∧ PollTrace refConsts false poll2 ∧
      writesOf evs = optionWriteSequence refConsts f72xTarget ⟨0xC0FFAAFD, 0x00400080, 0⟩ 3 :=
  ⟨pulseOracle_ready, fun _ => rfl,
    stm32f4_option_write_sequence refConsts pulseOracle f72xTarget
      ⟨0xC0FFAAFD, 0x00400080, 0⟩ 3 World.init pulseOracle_ready (fun _ => rfl)⟩

/-- C8: `stm32f4_option_write` on a link that reports a connection error.  When
the error is reported in the first poll loop (after the keyhole unlock) the call
returns true, the `return -1` of a `bool` function; when it is reported in the
second poll loop (after the start bit) the call returns false. -/
theorem stm32f4_option_write_first_poll_error :
    stm32f4_option_write refConsts deadLinkOracle 1 blankTarget ⟨0x0FFFAAED, 0, 0⟩ 1 World.init =
      some (true, ⟨1, 1, 0,
        [Event.write32 refConsts.FLASH_OPTKEYR refConsts.OPTKEY1,
          Event.write32 refConsts.FLASH_OPTKEYR refConsts.OPTKEY2,
          Event.read32 refConsts.FLASH_SR 0x10000, Event.checkError true]⟩) ∧
    stm32f4_option_write refConsts lateFailOracle 1 blankTarget ⟨0x0FFFAAED, 0, 0⟩ 1 World.init =
      some (false, ⟨2, 1, 0,
        [Event.write32 refConsts.FLASH_OPTKEYR refConsts.OPTKEY1,
          Event.write32 refConsts.FLASH_OPTKEYR refConsts.OPTKEY2,
          Event.read32 refConsts.FLASH_SR 0,
          Event.write32 refConsts.FLASH_OPTCR 0x0FFFAAED,
          Event.write32 refConsts.FLASH_OPTCR (0x0FFFAAED ||| refConsts.FLASH_OPTCR_OPTSTRT),
          Event.read32 refConsts.FLASH_SR 0x10000, Event.checkError true]⟩) := by
  constructor <;> decide

/-- C10, counterexample: on the F446 (code 0x421) the word that
`stm32f4_option_write_default` hands to `stm32f4_option_write` is not a fixed
point of `optcr_mask`. -/
theorem stm32f4_option_default_not_fixed :
    ((optcr_mask { blankTarget with idcode := 0x421 }
        (stm32f4_option_default_args { blankTarget with idcode := 0x421 } ⟨0, 0, 0⟩).1).2).take
      (stm32f4_option_default_args { blankTarget with idcode := 0x421 } ⟨0, 0, 0⟩).2 ≠
    (stm32f4_option_default_args { blankTarget with idcode := 0x421 } ⟨0, 0, 0⟩).1.take
      (stm32f4_option_default_args { blankTarget with idcode := 0x421 } ⟨0, 0, 0⟩).2 := by
  decide

/-- C10, amended: `optcr_mask` supports each of the codes below.  On 0x411,
0x413, 0x419, 0x434, 0x441, 0x449, 0x451 and 0x452 every option word that
`stm32f4_option_write_default` hands to `stm32f4_option_write` is a fixed point
of `optcr_mask`; on 0x421, 0x423, 0x431, 0x433 and 0x458 it hands over the
single word 0x0FFFAAED, which `optcr_mask` would change. -/
theorem stm32f4_option_default_words (t : target) (val : OptionWords)
    (hid : t.idcode ∈ [0x411, 0x413, 0x419, 0x434, 0x441, 0x449, 0x451, 0x452,
      0x421, 0x423, 0x431, 0x433, 0x458]) :
    (optcr_mask t (stm32f4_option_default_args t val).1).1 = true ∧
    (if t.idcode ∈ [0x421, 0x423, 0x431, 0x433, 0x458] then
      (stm32f4_option_default_args t val).1.take (stm32f4_option_default_args t val).2 =
          [0x0FFFAAED] ∧
        ((optcr_mask t (stm32f4_option_default_args t val).1).2).take
          (stm32f4_option_default_args t val).2 ≠ [0x0FFFAAED]
    else
      ((optcr_mask t (stm32f4_option_default_args t val).1).2).take
          (stm32f4_option_default_args t val).2 =
        (stm32f4_option_default_args t val).1.take (stm32f4_option_default_args t val).2) := by
  simp only [List.mem_cons, List.mem_singleton, List.not_mem_nil, or_false] at hid
  rcases hid with h | h | h | h | h | h | h | h | h | h | h | h | h <;>
    simp [h, optcr_mask, stm32f4_option_default_args, OptionWords.take, ID_STM32F20X,
      ID_STM32F40X, ID_STM32F42X, ID_STM32F46X, ID_STM32F446, ID_STM32F401C, ID_STM32F411,
      ID_STM32F412, ID_STM32F401E, ID_STM32F413, ID_STM32F74X, ID_STM32F76X, ID_STM32F72X,
      ID_STM32F410, not32, u32] <;> decide

/-- Witness of C10: the amended statement on an F72x, which hands over three words. -/
theorem stm32f4_option_default_words_witness :
    f72xTarget.idcode ∈ [0x411, 0x413, 0x419, 0x434, 0x441, 0x449, 0x451, 0x452,
      0x421, 0x423, 0x431, 0x433, 0x458] ∧
    (optcr_mask f72xTarget (stm32f4_option_default_args f72xTarget ⟨7, 7, 7⟩).1).1 = true ∧
    (if f72xTarget.idcode ∈ [0x421, 0x423, 0x431, 0x433, 0x458] then
      (stm32f4_option_default_args f72xTarget ⟨7, 7, 7⟩).1.take
          (stm32f4_option_default_args f72xTarget ⟨7, 7, 7⟩).2 = [0x0FFFAAED] ∧
        ((optcr_mask f72xTarget (stm32f4_option_default_args f72xTarget ⟨7, 7, 7⟩).1).2).take
          (stm32f4_option_default_args f72xTarget ⟨7, 7, 7⟩).2 ≠ [0x0FFFAAED]
    else
      ((optcr_mask f72xTarget (stm32f4_option_default_args f72xTarget ⟨7, 7, 7⟩).1).2).take
          (stm32f4_option_default_args f72xTarget ⟨7, 7, 7⟩).2 =
        (stm32f4_option_default_args f72xTarget ⟨7, 7, 7⟩).1.take
          (stm32f4_option_default_args f72xTarget ⟨7, 7, 7⟩).2) :=
  ⟨by decide, stm32f4_option_default_words f72xTarget ⟨7, 7, 7⟩ (by decide)⟩


/-! ### Ambiguous identification code -/

/-- C15: when the identification register reads 0x411 in its low 12 bits and
the CPU-identification register satisfies `(cpuid & 0xFFF0) == 0xC240`, the
probe returns the same result and produces exactly the same device record as
on a device whose identification register reads 0x413: it succeeds, records
idcode 0x413, the F4 driver label and the command table under "STM32F4", with
the same flash and RAM regions. -/
theorem stm32f4_probe_remap (K : Consts) (O O2 : Oracle) (t : target) (w w2 : World)
    (hid : u32 (O.mem32 w.nread K.DBGMCU_IDCODE) &&& 0xFFF = 0x411)
    (hc : u32 (O.mem32 (w.nread + 1) K.ARM_CPUID) &&& 0xFFF0 = 0xC240)
    (hid2 : u32 (O2.mem32 w2.nread K.DBGMCU_IDCODE) &&& 0xFFF = 0x413) :
    (stm32f4_probe K O t w).1 = (stm32f4_probe K O2 t w2).1 ∧
    (stm32f4_probe K O t w).2.1 = (stm32f4_probe K O2 t w2).2.1 ∧
    (stm32f4_probe K O t w).1 = true ∧
    (stm32f4_probe K O t w).2.1.idcode = 0x413 ∧
    (stm32f4_probe K O t w).2.1.driver = DriverStr.stm32f4_driver_str ∧
    (stm32f4_probe K O t w).2.1.commands =
      t.commands ++ [⟨CmdTable.stm32f4_cmd_list, "STM32F4"⟩] := by
  rw [stm32f4_probe_of_f40x K O t w hid hc,
    stm32f4_probe_of_ne K O2 t w2 (by rw [hid2]; decide), hid2]
  simp [stm32f4_probe_switch, ID_STM32F20X, ID_STM32F40X, ID_STM32F42X, ID_STM32F46X,
    stm32f4_add_flash, target_add_flash, target_add_ram, target_add_commands, u32, u8]

/-- Witness of C15: an F405 revision A (identification register 0x10006411,
CPU-identification register 0x410FC241) against a device that reads 0x10016413. -/
theorem stm32f4_probe_remap_witness :
    u32 ((idOracle refConsts 0x10006411 0x410FC241).mem32 World.init.nread
      refConsts.DBGMCU_IDCODE) &&& 0xFFF = 0x411 ∧
    u32 ((idOracle refConsts 0x10006411 0x410FC241).mem32 (World.init.nread + 1)
      refConsts.ARM_CPUID) &&& 0xFFF0 = 0xC240 ∧
    u32 ((constOracle 0x10016413).mem32 World.init.nread refConsts.DBGMCU_IDCODE) &&& 0xFFF
      = 0x413 ∧
    (stm32f4_probe refConsts (idOracle refConsts 0x10006411 0x410FC241) blankTarget World.init).1
      = (stm32f4_probe refConsts (constOracle 0x10016413) blankTarget World.init).1 ∧
    (stm32f4_probe refConsts (idOracle refConsts 0x10006411 0x410FC241) blankTarget
        World.init).2.1
      = (stm32f4_probe refConsts (constOracle 0x10016413) blankTarget World.init).2.1 ∧
    (stm32f4_probe refConsts (idOracle refConsts 0x10006411 0x410FC241) blankTarget World.init).1
      = true ∧
    (stm32f4_probe refConsts (idOracle refConsts 0x10006411 0x410FC241) blankTarget
        World.init).2.1.idcode = 0x413 ∧
    (stm32f4_probe refConsts (idOracle refConsts 0x10006411 0x410FC241) blankTarget
        World.init).2.1.driver = DriverStr.stm32f4_driver_str ∧
    (stm32f4_probe refConsts (idOracle refConsts 0x10006411 0x410FC241) blankTarget
        World.init).2.1.commands =
      blankTarget.commands ++ [⟨CmdTable.stm32f4_cmd_list, "STM32F4"⟩] :=
  ⟨by decide, by decide, by decide,
    stm32f4_probe_remap refConsts (idOracle refConsts 0x10006411 0x410FC241)
      (constOracle 0x10016413) blankTarget World.init World.init
      (by decide) (by decide) (by decide)⟩

/-- C16, counterexample: on a device whose identification register reads 0x411
the RAM regions that the probe registers depend on the CPU-identification
register: with the F4 model field (0x410FC241) the region at 0x10000000 is
registered, with another value (0x412FC230) it is not. -/
theorem stm32f4_probe_f2_ram_differs :
    (stm32f4_probe refConsts (idOracle refConsts 0x10006411 0x410FC241) blankTarget
        World.init).2.1.ram = [⟨0x10000000, 0x10000⟩, ⟨0x20000000, 0x40000⟩] ∧
    (stm32f4_probe refConsts (idOracle refConsts 0x10006411 0x412FC230) blankTarget
        World.init).2.1.ram = [⟨0x20000000, 0x40000⟩] := by
  constructor <;> decide

/-- C16, amended: on a device whose identification register reads 0x411 the
probe succeeds and registers the same three flash regions for every value of
the CPU-identification register.  The two outcomes differ in the recorded
idcode (0x413 or 0x411), the driver label, the command-set label, and the RAM
regions: the region (0x10000000, 0x10000) is registered only when the model
field matches; the region (0x20000000, 0x40000) is registered in both. -/
theorem stm32f4_probe_f2_tag (K : Consts) (O : Oracle) (t : target) (w : World)
    (hid : u32 (O.mem32 w.nread K.DBGMCU_IDCODE) &&& 0xFFF = 0x411) :
    (stm32f4_probe K O t w).1 = true ∧
    (stm32f4_probe K O t w).2.1.flash = t.flash ++
      [mkFlash 0x8000000 0x10000 0x4000 0, mkFlash 0x8010000 0x10000 0x10000 4,
       mkFlash 0x8020000 0xE0000 0x20000 5] ∧
    (if u32 (O.mem32 (w.nread + 1) K.ARM_CPUID) &&& 0xFFF0 = 0xC240 then
      (stm32f4_probe K O t w).2.1.idcode = 0x413 ∧
      (stm32f4_probe K O t w).2.1.driver = DriverStr.stm32f4_driver_str ∧
      (stm32f4_probe K O t w).2.1.commands =
        t.commands ++ [⟨CmdTable.stm32f4_cmd_list, "STM32F4"⟩] ∧
      (stm32f4_probe K O t w).2.1.ram =
        t.ram ++ [⟨0x10000000, 0x10000⟩, ⟨0x20000000, 0x40000⟩]
    else
      (stm32f4_probe K O t w).2.1.idcode = 0x411 ∧
      (stm32f4_probe K O t w).2.1.driver = DriverStr.stm32f2_driver_str ∧
      (stm32f4_probe K O t w).2.1.commands =
        t.commands ++ [⟨CmdTable.stm32f4_cmd_list, "STM32F2"⟩] ∧
      (stm32f4_probe K O t w).2.1.ram = t.ram ++ [⟨0x20000000, 0x40000⟩]) := by
  by_cases hc : u32 (O.mem32 (w.nread + 1) K.ARM_CPUID) &&& 0xFFF0 = 0xC240
  · rw [if_pos hc, stm32f4_probe_of_f40x K O t w hid hc]
    simp [stm32f4_probe_switch, ID_STM32F20X, ID_STM32F40X, ID_STM32F42X, ID_STM32F46X,
      stm32f4_add_flash, target_add_flash, target_add_ram, target_add_commands, mkFlash, u32, u8]
  · rw [if_neg hc, stm32f4_probe_of_f20x K O t w hid hc]
    simp [stm32f4_probe_switch, ID_STM32F20X, ID_STM32F40X, ID_STM32F42X, ID_STM32F46X,
      stm32f4_add_flash, target_add_flash, target_add_ram, target_add_commands, mkFlash, u32, u8]

/-- Witness of C16: an F205 (identification register 0x10006411,
CPU-identification register 0x412FC230). -/
theorem stm32f4_probe_f2_tag_witness :
    u32 ((idOracle refConsts 0x10006411 0x412FC230).mem32 World.init.nread
      refConsts.DBGMCU_IDCODE) &&& 0xFFF = 0x411 ∧
    (stm32f4_probe refConsts (idOracle refConsts 0x10006411 0x412FC230) blankTarget World.init).1
      = true ∧
    (stm32f4_probe refConsts (idOracle refConsts 0x10006411 0x412FC230) blankTarget
        World.init).2.1.flash = blankTarget.flash ++
      [mkFlash 0x8000000 0x10000 0x4000 0, mkFlash 0x8010000 0x10000 0x10000 4,
       mkFlash 0x8020000 0xE0000 0x20000 5] ∧
    (if u32 ((idOracle refConsts 0x10006411 0x412FC230).mem32 (World.init.nread + 1)
        refConsts.ARM_CPUID) &&& 0xFFF0 = 0xC240 then
      (stm32f4_probe refConsts (idOracle refConsts 0x10006411 0x412FC230) blankTarget
        World.init).2.1.idcode = 0x413 ∧
      (stm32f4_probe refConsts (idOracle refConsts 0x10006411 0x412FC230) blankTarget
        World.init).2.1.driver = DriverStr.stm32f4_driver_str ∧
      (stm32f4_probe refConsts (idOracle refConsts 0x10006411 0x412FC230) blankTarget
        World.init).2.1.commands =
        blankTarget.commands ++ [⟨CmdTable.stm32f4_cmd_list, "STM32F4"⟩] ∧
      (stm32f4_probe refConsts (idOracle refConsts 0x10006411 0x412FC230) blankTarget
        World.init).2.1.ram =
        blankTarget.ram ++ [⟨0x10000000, 0x10000⟩, ⟨0x20000000, 0x40000⟩]
    else
      (stm32f4_probe refConsts (idOracle refConsts 0x10006411 0x412FC230) blankTarget
        World.init).2.1.idcode = 0x411 ∧
      (stm32f4_probe refConsts (idOracle refConsts 0x10006411 0x412FC230) blankTarget
        World.init).2.1.driver = DriverStr.stm32f2_driver_str ∧
      (stm32f4_probe refConsts (idOracle refConsts 0x10006411 0x412FC230) blankTarget
        World.init).2.1.commands =
        blankTarget.commands ++ [⟨CmdTable.stm32f4_cmd_list, "STM32F2"⟩] ∧
      (stm32f4_probe refConsts (idOracle refConsts 0x10006411 0x412FC230) blankTarget
        World.init).2.1.ram = blankTarget.ram ++ [⟨0x20000000, 0x40000⟩]) :=
  ⟨by decide,
    stm32f4_probe_f2_tag refConsts (idOracle refConsts 0x10006411 0x412FC230) blankTarget
      World.init (by decide)⟩

/-! ### Write parallelism -/

/-- The dispatch either fails or appends regions that all carry this driver's
handlers and the parallelism 32. -/
theorem stm32f4_probe_switch_flash (idcode : Nat) (f2 : Bool) (t t1 : target)
    (h : stm32f4_probe_switch idcode f2 t = some t1) :
    ∃ regs, t1.flash = t.flash ++ regs ∧ regs ≠ [] ∧
      ∀ f ∈ regs, f.write = Handler.stm32f4_flash_write ∧ f.psize = 32 := by
  unfold stm32f4_probe_switch at h
  split at h
  · simp only [Option.some.injEq] at h
    subst h
    by_cases c : idcode = ID_STM32F42X ∨ idcode = ID_STM32F46X
    · refine ⟨[mkFlash 0x8100000 0x10000 0x4000 12, mkFlash 0x8110000 0x10000 0x10000 16,
        mkFlash 0x8120000 0xE0000 0x20000 17, mkFlash 0x8000000 0x10000 0x4000 0,
        mkFlash 0x8010000 0x10000 0x10000 4, mkFlash 0x8020000 0xE0000 0x20000 5], ?_,
        by simp, by simp [mkFlash]⟩
      simp only [if_pos c]
      split <;> split <;>
        simp [stm32f4_add_flash, target_add_flash, target_add_ram, target_add_commands,
          mkFlash, u32, u8]
    · refine ⟨[mkFlash 0x8000000 0x10000 0x4000 0,
        mkFlash 0x8010000 0x10000 0x10000 4, mkFlash 0x8020000 0xE0000 0x20000 5], ?_,
        by simp, by simp [mkFlash]⟩
      simp only [if_neg c]
      split <;> split <;>
        simp [stm32f4_add_flash, target_add_flash, target_add_ram, target_add_commands,
          mkFlash, u32, u8]
  · split at h
    · simp only [Option.some.injEq] at h
      subst h
      exact ⟨[mkFlash 0x8000000 0x10000 0x4000 0, mkFlash 0x8010000 0x10000 0x10000 4,
        mkFlash 0x8020000 0x160000 0x20000 5],
        by simp [stm32f4_add_flash, target_add_flash, target_add_ram, target_add_commands,
          mkFlash, u32, u8], by simp, by simp [mkFlash]⟩
    · split at h
      · simp only [Option.some.injEq] at h
        subst h
        exact ⟨[mkFlash 0x8000000 0x20000 0x8000 0, mkFlash 0x8020000 0x20000 0x20000 4,
          mkFlash 0x8040000 0xC0000 0x40000 5, mkFlash 0x0200000 0x20000 0x8000 0,
          mkFlash 0x0220000 0x20000 0x20000 4, mkFlash 0x0240000 0xC0000 0x40000 5],
          by simp [stm32f4_add_flash, target_add_flash, target_add_ram, target_add_commands,
            mkFlash, u32, u8], by simp, by simp [mkFlash]⟩
      · split at h
        · simp only [Option.some.injEq] at h
          subst h
          exact ⟨[mkFlash 0x8000000 0x20000 0x8000 0, mkFlash 0x8020000 0x20000 0x20000 4,
            mkFlash 0x8040000 0x1C0000 0x40000 5, mkFlash 0x0200000 0x20000 0x8000 0,
            mkFlash 0x0220000 0x20000 0x20000 4, mkFlash 0x0240000 0x1C0000 0x40000 5],
            by simp [stm32f4_add_flash, target_add_flash, target_add_ram, target_add_commands,
              mkFlash, u32, u8], by simp, by simp [mkFlash]⟩
        · split at h
          · simp only [Option.some.injEq] at h
            subst h
            exact ⟨[mkFlash 0x8000000 0x10000 0x4000 0, mkFlash 0x8010000 0x10000 0x10000 4,
              mkFlash 0x8020000 0x60000 0x20000 3],
              by simp [stm32f4_add_flash, target_add_flash, target_add_ram,
                target_add_commands, mkFlash, u32, u8], by simp, by simp [mkFlash]⟩
          · cases h

/-- The probe is one of its three read sequences followed by the dispatch. -/
theorem stm32f4_probe_cases (K : Consts) (O : Oracle) (t : target) (w : World) :
    ∃ idcode f2 w2, stm32f4_probe K O t w =
      match stm32f4_probe_switch idcode f2 t with
      | none => (false, t, w2)
      | some t1 => (true, { t1 with idcode := idcode }, w2) := by
  by_cases h : u32 (O.mem32 w.nread K.DBGMCU_IDCODE) &&& 0xFFF = ID_STM32F20X
  · by_cases hc : u32 (O.mem32 (w.nread + 1) K.ARM_CPUID) &&& 0xFFF0 = 0xC240
    · exact ⟨ID_STM32F40X, false,
        (target_mem_read32 O (target_mem_read32 O w K.DBGMCU_IDCODE).2 K.ARM_CPUID).2,
        stm32f4_probe_of_f40x K O t w h hc⟩
    · exact ⟨ID_STM32F20X, true,
        (target_mem_read32 O (target_mem_read32 O w K.DBGMCU_IDCODE).2 K.ARM_CPUID).2,
        stm32f4_probe_of_f20x K O t w h hc⟩
  · exact ⟨_, _, _, stm32f4_probe_of_ne K O t w h⟩

/-- A successful probe appends at least one region, and every region it appends
carries this driver's write handler and the parallelism 32. -/
theorem stm32f4_probe_flash (K : Consts) (O : Oracle) (t : target) (w : World)
    (h : (stm32f4_probe K O t w).1 = true) :
    ∃ regs, (stm32f4_probe K O t w).2.1.flash = t.flash ++ regs ∧ regs ≠ [] ∧
      ∀ f ∈ regs, f.write = Handler.stm32f4_flash_write ∧ f.psize = 32 := by
  obtain ⟨idcode, f2, w2, hp⟩ := stm32f4_probe_cases K O t w
  rw [hp] at h ⊢
  cases hs : stm32f4_probe_switch idcode f2 t with
  | none => rw [hs] at h; cases h
  | some t1 => exact stm32f4_probe_switch_flash idcode f2 t t1 hs

/-- The scan ends with `v` when some region matches and every matching region
carries `v`. -/
theorem psizeScan_eq (v : Nat) : ∀ (l : List stm32f4_flash) (p : Nat),
    (∀ f ∈ l, f.write = Handler.stm32f4_flash_write → u8 f.psize = v) →
    (p = v ∨ ∃ f ∈ l, f.write = Handler.stm32f4_flash_write) → psizeScan p l = v := by
  intro l
  induction l with
  | nil =>
    intro p _ h
    rcases h with h | ⟨f, hf, _⟩
    · exact h
    · cases hf
  | cons g gs ih =>
    intro p hall h
    rw [psizeScan]
    apply ih _ (fun f hf => hall f (List.mem_cons_of_mem _ hf))
    by_cases hg : g.write = Handler.stm32f4_flash_write
    · left; rw [if_pos hg]; exact hall g (List.mem_cons_self _ _) hg
    · rw [if_neg hg]
      rcases h with h | ⟨f, hf, hw⟩
      · left; exact h
      · rcases List.mem_cons.mp hf with rfl | hf
        · exact absurd hw hg
        · right; exact ⟨f, hf, hw⟩

/-- C13: on a device record populated by a successful probe, `psize x8` or
`psize x32` returns true and stores the chosen parallelism in the `psize` field
of every flash region whose write handler is `stm32f4_flash_write`, changing no
other field of any region and nothing else in the record; a following `psize`
with no argument then returns true and reports the same parallelism. -/
theorem stm32f4_cmd_psize_roundtrip (K : Consts) (O : Oracle) (t : target) (w : World)
    (p : String) (wa wb : World)
    (hprobe : (stm32f4_probe K O t w).1 = true) (hp : p = "x8" ∨ p = "x32") :
    stm32f4_cmd_psize (stm32f4_probe K O t w).2.1 ["psize", p] wa =
      CmdResult.done (true,
        { (stm32f4_probe K O t w).2.1 with
          flash := (stm32f4_probe K O t w).2.1.flash.map (fun f =>
            if f.write = Handler.stm32f4_flash_write
            then { f with psize := if p = "x8" then 8 else 32 } else f) }, wa) ∧
    stm32f4_cmd_psize
        { (stm32f4_probe K O t w).2.1 with
          flash := (stm32f4_probe K O t w).2.1.flash.map (fun f =>
            if f.write = Handler.stm32f4_flash_write
            then { f with psize := if p = "x8" then 8 else 32 } else f) } ["psize"] wb =
      CmdResult.done (true,
        { (stm32f4_probe K O t w).2.1 with
          flash := (stm32f4_probe K O t w).2.1.flash.map (fun f =>
            if f.write = Handler.stm32f4_flash_write
            then { f with psize := if p = "x8" then 8 else 32 } else f) },
        tc_printf wb ("Flash write parallelism: " ++ p ++ newline)) := by
  obtain ⟨regs, hfl, hne, hregs⟩ := stm32f4_probe_flash K O t w hprobe
  have hex : ∃ f ∈ (stm32f4_probe K O t w).2.1.flash, f.write = Handler.stm32f4_flash_write := by
    cases regs with
    | nil => exact absurd rfl hne
    | cons g gs =>
      exact ⟨g, by rw [hfl]; simp, (hregs g (List.mem_cons_self _ _)).1⟩
  obtain ⟨g, hg, hgw⟩ := hex
  rcases hp with rfl | rfl
  · have hscan : psizeScan 8 ((stm32f4_probe K O t w).2.1.flash.map (fun f =>
        if f.write = Handler.stm32f4_flash_write then { f with psize := 8 } else f)) = 8 := by
      apply psizeScan_eq 8 _ 8 _ (Or.inl rfl)
      intro f hf hw
      obtain ⟨f0, -, rfl⟩ := List.mem_map.mp hf
      by_cases h0 : f0.write = Handler.stm32f4_flash_write
      · simp [h0, u8]
      · rw [if_neg h0] at hw; exact absurd hw h0
    refine ⟨by simp [stm32f4_cmd_psize], ?_⟩
    simp [stm32f4_cmd_psize, hscan]
  · have hscan : psizeScan 8 ((stm32f4_probe K O t w).2.1.flash.map (fun f =>
        if f.write = Handler.stm32f4_flash_write then { f with psize := 32 } else f)) = 32 := by
      apply psizeScan_eq 32 _ 8 _ (Or.inr ⟨{ g with psize := 32 }, ?_, hgw⟩)
      · intro f hf hw
        obtain ⟨f0, -, rfl⟩ := List.mem_map.mp hf
        by_cases h0 : f0.write = Handler.stm32f4_flash_write
        · simp [h0, u8]
        · rw [if_neg h0] at hw; exact absurd hw h0
      · exact List.mem_map.mpr ⟨g, hg, by simp [hgw]⟩
    refine ⟨by simp [stm32f4_cmd_psize], ?_⟩
    simp [stm32f4_cmd_psize, hscan]

/-- Witness of C13: `psize x8` then `psize` on the record of a probed F405. -/
theorem stm32f4_cmd_psize_roundtrip_witness :
    (stm32f4_probe refConsts (constOracle 0x10016413) blankTarget World.init).1 = true ∧
    ("x8" = "x8" ∨ "x8" = "x32") ∧
    stm32f4_cmd_psize f405Record ["psize", "x8"] World.init =
      CmdResult.done (true,
        { f405Record with
          flash := f405Record.flash.map (fun f =>
            if f.write = Handler.stm32f4_flash_write
            then { f with psize := if "x8" = "x8" then 8 else 32 } else f) }, World.init) ∧
    stm32f4_cmd_psize
        { f405Record with
          flash := f405Record.flash.map (fun f =>
            if f.write = Handler.stm32f4_flash_write
            then { f with psize := if "x8" = "x8" then 8 else 32 } else f) } ["psize"]
        World.init =
      CmdResult.done (true,
        { f405Record with
          flash := f405Record.flash.map (fun f =>
            if f.write = Handler.stm32f4_flash_write
            then { f with psize := if "x8" = "x8" then 8 else 32 } else f) },
        tc_printf World.init ("Flash write parallelism: " ++ "x8" ++ newline)) :=
  ⟨by decide, Or.inl rfl,
    stm32f4_cmd_psize_roundtrip refConsts (constOracle 0x10016413) blankTarget World.init "x8"
      World.init World.init (by decide) (Or.inl rfl)⟩

/-- C14, counterexample: on the record of a freshly probed F405, on which no
`psize x8` or `psize x32` has been run, `psize` with no argument reports x32,
not x8. -/
theorem stm32f4_cmd_psize_default_not_x8 :
    stm32f4_cmd_psize f405Record ["psize"] World.init =
      CmdResult.done (true, f405Record,
        tc_printf World.init ("Flash write parallelism: x32" ++ newline)) ∧
    stm32f4_cmd_psize f405Record ["psize"] World.init ≠
      CmdResult.done (true, f405Record,
        tc_printf World.init ("Flash write parallelism: x8" ++ newline)) := by
  constructor <;> decide

/-- C14, amended: on a device record populated by a successful probe, when no
`psize x8` or `psize x32` has been run (every region with this driver's write
handler that the record carried before the probe still has the parallelism 32
that `stm32f4_add_flash` sets), `psize` with no argument returns true, leaves
the record unchanged and reports x32. -/
theorem stm32f4_cmd_psize_default (K : Consts) (O : Oracle) (t : target) (w wb : World)
    (hprobe : (stm32f4_probe K O t w).1 = true)
    (hfresh : ∀ f ∈ t.flash, f.write = Handler.stm32f4_flash_write → f.psize = 32) :
    stm32f4_cmd_psize (stm32f4_probe K O t w).2.1 ["psize"] wb =
      CmdResult.done (true, (stm32f4_probe K O t w).2.1,
        tc_printf wb ("Flash write parallelism: x32" ++ newline)) := by
  obtain ⟨regs, hfl, hne, hregs⟩ := stm32f4_probe_flash K O t w hprobe
  have hscan : psizeScan 8 (stm32f4_probe K O t w).2.1.flash = 32 := by
    apply psizeScan_eq 32 _ 8
    · intro f hf hw
      rw [hfl] at hf
      rcases List.mem_append.mp hf with hf | hf
      · rw [hfresh f hf hw]; rfl
      · rw [(hregs f hf).2]; rfl
    · right
      cases regs with
      | nil => exact absurd rfl hne
      | cons g gs => exact ⟨g, by rw [hfl]; simp, (hregs g (List.mem_cons_self _ _)).1⟩
  simp [stm32f4_cmd_psize, hscan]

/-- Witness of C14: the record of a freshly probed F405. -/
theorem stm32f4_cmd_psize_default_witness :
    (stm32f4_probe refConsts (constOracle 0x10016413) blankTarget World.init).1 = true ∧
    (∀ f ∈ blankTarget.flash, f.write = Handler.stm32f4_flash_write → f.psize = 32) ∧
    stm32f4_cmd_psize
        (stm32f4_probe refConsts (constOracle 0x10016413) blankTarget World.init).2.1 ["psize"]
        World.init =
      CmdResult.done (true,
        (stm32f4_probe refConsts (constOracle 0x10016413) blankTarget World.init).2.1,
        tc_printf World.init ("Flash write parallelism: x32" ++ newline)) :=
  ⟨by decide, by decide,
    stm32f4_cmd_psize_default refConsts (constOracle 0x10016413) blankTarget World.init
      World.init (by decide) (by decide)⟩

/-! ### Sector numbering -/

/-- The erase on a nonzero block size, from its starting sector. -/
theorem stm32f4_flash_erase_start (K : Consts) (O : Oracle) (fuel : Nat) (f : stm32f4_flash)
    (addr len : Nat) (w : World) (hbs : 0 < f.blocksize) :
    stm32f4_flash_erase K O fuel f addr len w =
      match eraseLoop K O f.blocksize fuel (stm32f4_flash_unlock K O w) len
          (eraseStartSector f addr) with
      | none => none
      | some (true, w2) => some (-1, w2)
      | some (false, w2) =>
        if u16 (u32 (O.mem32 w2.nread K.FLASH_SR)) &&& K.SR_ERROR_MASK ≠ 0 then
          some (-1, (target_mem_read32 O w2 K.FLASH_SR).2)
        else some (0, (target_mem_read32 O w2 K.FLASH_SR).2) :=
  stm32f4_flash_erase_eq K O fuel f addr len w hbs

/-- The `FLASH_CR` writes of an erase on a device that gets ready and reports
no error: the command pairs of `ceil(len / blocksize)` sectors from the
starting sector on. -/
theorem stm32f4_flash_erase_writes (K : Consts) (O : Oracle) (f : stm32f4_flash)
    (addr len : Nat) (w : World) (hbs : 0 < f.blocksize)
    (hkey : K.FLASH_KEYR ≠ K.FLASH_CR) (hready : Ready K O) (hnoerr : NoError O) :
    ∃ N r w1 evs,
      (∀ fuel, N ≤ fuel → stm32f4_flash_erase K O fuel f addr len w = some (r, w1)) ∧
      w1.trace = w.trace ++ evs ∧
      (writesOf evs).filter (fun p => decide (p.1 = K.FLASH_CR)) =
        eraseCmds K ((len + f.blocksize - 1) / f.blocksize) (eraseStartSector f addr) := by
  obtain ⟨uevs, hu, -, -, hufilter⟩ := stm32f4_flash_unlock_trace K O w
  obtain ⟨N, b, w2, evs, hrun, htr, hT, hF⟩ := eraseLoop_spec K O f.blocksize hbs (Or.inl hready)
    len (stm32f4_flash_unlock K O w) (eraseStartSector f addr)
  have hb : b = false := by
    cases b with
    | false => rfl
    | true =>
      obtain ⟨-, k, hk⟩ := hT rfl
      rw [hnoerr k] at hk
      cases hk
  subst hb
  obtain ⟨-, hw⟩ := hF rfl
  refine ⟨N, if u16 (u32 (O.mem32 w2.nread K.FLASH_SR)) &&& K.SR_ERROR_MASK ≠ 0 then -1 else 0,
    (target_mem_read32 O w2 K.FLASH_SR).2,
    uevs ++ evs ++ [Event.read32 K.FLASH_SR (u32 (O.mem32 w2.nread K.FLASH_SR))], ?_, ?_, ?_⟩
  · intro fuel hf
    rw [stm32f4_flash_erase_start K O fuel f addr len w hbs, hrun fuel hf]
    simp only
    split <;> rfl
  · simp [target_mem_read32, htr, hu]
  · rw [writesOf_append, writesOf_append, hw, List.filter_append, List.filter_append,
      hufilter hkey, filter_eraseCmds]
    simp [writesOf]

/-- C18, counterexample: erasing 0x6000 bytes (one block of 0x4000 and a
remainder of 0x2000) from the start of the first region of the common base
issues the command pairs of two sectors, 0 and 1: the sector that holds the
final 0x2000 bytes is erased. -/
theorem stm32f4_flash_erase_partial_sector_erased :
    (stm32f4_flash_erase refConsts (constOracle 0) 3 (mkFlash 0x8000000 0x10000 0x4000 0)
        0x8000000 0x6000 World.init).map (fun r => (r.1, writesOf r.2.trace)) =
      some (0, erasePair refConsts 0 ++ erasePair refConsts 1) := by
  decide

/-- C18, amended: for every region with a nonzero block size and every length
`k * blocksize + r` with `0 < r < blocksize`, on a device that gets ready and
reports no error, `stm32f4_flash_erase` issues the erase command pairs of
`k + 1` consecutive sectors: the loop stops on `len < blocksize` only after the
sector that holds the final `r` bytes has been erased. -/
theorem stm32f4_flash_erase_misaligned (K : Consts) (O : Oracle) (f : stm32f4_flash)
    (addr k r : Nat) (w : World) (hbs : 0 < f.blocksize) (hr0 : 0 < r)
    (hr : r < f.blocksize) (hkey : K.FLASH_KEYR ≠ K.FLASH_CR) (hready : Ready K O)
    (hnoerr : NoError O) :
    ∃ N res w1 evs,
      (∀ fuel, N ≤ fuel →
        stm32f4_flash_erase K O fuel f addr (k * f.blocksize + r) w = some (res, w1)) ∧
      w1.trace = w.trace ++ evs ∧
      (writesOf evs).filter (fun p => decide (p.1 = K.FLASH_CR)) =
        (List.range (k + 1)).flatMap (fun i =>
          erasePair K (u8 (eraseStartSector f addr + i))) := by
  obtain ⟨N, res, w1, evs, hrun, htr, hw⟩ :=
    stm32f4_flash_erase_writes K O f addr (k * f.blocksize + r) w hbs hkey hready hnoerr
  have hceil : (k * f.blocksize + r + f.blocksize - 1) / f.blocksize = k + 1 := by
    have h1 : k * f.blocksize + r + f.blocksize - 1 = (r - 1) + (k + 1) * f.blocksize := by
      rw [Nat.add_mul, Nat.one_mul]; omega
    rw [h1, Nat.add_mul_div_right _ _ hbs, Nat.div_eq_of_lt (by omega)]
    omega
  rw [hceil, eraseCmds_eq_flatMap K _ _ (show eraseStartSector f addr < 256 from
    Nat.mod_lt _ (by decide))] at hw
  exact ⟨N, res, w1, evs, hrun, htr, hw⟩

/-- Witness of C18: erasing 0x6000 bytes from 0x8004000 in the first region of
the common base, on a device that is busy at two reads out of three. -/
theorem stm32f4_flash_erase_misaligned_witness :
    0 < (mkFlash 0x8000000 0x10000 0x4000 0).blocksize ∧ 0 < 0x2000 ∧
    0x2000 < (mkFlash 0x8000000 0x10000 0x4000 0).blocksize ∧
    refConsts.FLASH_KEYR ≠ refConsts.FLASH_CR ∧ Ready refConsts pulseOracle ∧
    NoError pulseOracle ∧
    ∃ N res w1 evs,
      (∀ fuel, N ≤ fuel → stm32f4_flash_erase refConsts pulseOracle fuel
        (mkFlash 0x8000000 0x10000 0x4000 0) 0x8004000
        (1 * (mkFlash 0x8000000 0x10000 0x4000 0).blocksize + 0x2000) World.init
          = some (res, w1)) ∧
      w1.trace = World.init.trace ++ evs ∧
      (writesOf evs).filter (fun p => decide (p.1 = refConsts.FLASH_CR)) =
        (List.range (1 + 1)).flatMap (fun i =>
          erasePair refConsts
            (u8 (eraseStartSector (mkFlash 0x8000000 0x10000 0x4000 0) 0x8004000 + i))) :=
  ⟨by decide, by decide, by decide, by decide, pulseOracle_ready, fun _ => rfl,
    stm32f4_flash_erase_misaligned refConsts pulseOracle (mkFlash 0x8000000 0x10000 0x4000 0)
      0x8004000 1 0x2000 World.init (by decide) (by decide) (by decide) (by decide)
      pulseOracle_ready (fun _ => rfl)⟩

/-- C19: on an F72x (code 0x452) the probe registers the third region with base
sector 3, so the sector index is not injective: the address 0x800C000 (fourth
16 KiB sector, first region) and the address 0x8020000 (first 128 KiB sector,
third region) both get sector index 3, and erasing either issues the same
command pair. -/
theorem stm32f4_probe_f72x_sector_collision :
    (stm32f4_probe refConsts (constOracle 0x10006452) blankTarget World.init).2.1.flash =
      [mkFlash 0x8000000 0x10000 0x4000 0, mkFlash 0x8010000 0x10000 0x10000 4,
       mkFlash 0x8020000 0x60000 0x20000 3] ∧
    eraseStartSector (mkFlash 0x8000000 0x10000 0x4000 0) 0x800C000 = 3 ∧
    eraseStartSector (mkFlash 0x8020000 0x60000 0x20000 3) 0x8020000 = 3 ∧
    (stm32f4_flash_erase refConsts (constOracle 0) 2 (mkFlash 0x8000000 0x10000 0x4000 0)
        0x800C000 0x4000 World.init).map (fun r => writesOf r.2.trace) =
      some (erasePair refConsts 3) ∧
    (stm32f4_flash_erase refConsts (constOracle 0) 2 (mkFlash 0x8020000 0x60000 0x20000 3)
        0x8020000 0x20000 World.init).map (fun r => writesOf r.2.trace) =
      some (erasePair refConsts 3) := by
  refine ⟨by decide, by decide, by decide, by decide, by decide⟩

/-- The flash regions that the probe registers on an F74x. -/
theorem stm32f4_probe_0x449_flash (K : Consts) (O : Oracle) (t : target) (w : World)
    (hid : u32 (O.mem32 w.nread K.DBGMCU_IDCODE) &&& 0xFFF = 0x449) :
    (stm32f4_probe K O t w).2.1.flash = t.flash ++
      [mkFlash 0x8000000 0x20000 0x8000 0, mkFlash 0x8020000 0x20000 0x20000 4,
       mkFlash 0x8040000 0xC0000 0x40000 5, mkFlash 0x0200000 0x20000 0x8000 0,
       mkFlash 0x0220000 0x20000 0x20000 4, mkFlash 0x0240000 0xC0000 0x40000 5] := by
  rw [stm32f4_probe_of_ne K O t w (by rw [hid]; decide), hid]
  simp [stm32f4_probe_switch, ID_STM32F20X, ID_STM32F40X, ID_STM32F42X, ID_STM32F46X,
    ID_STM32F446, ID_STM32F401C, ID_STM32F411, ID_STM32F412, ID_STM32F401E, ID_STM32F413,
    ID_STM32F74X, stm32f4_add_flash, target_add_flash, target_add_ram, target_add_commands,
    mkFlash, u32, u8]

/-- The flash regions that the probe registers on an F76x. -/
theorem stm32f4_probe_0x451_flash (K : Consts) (O : Oracle) (t : target) (w : World)
    (hid : u32 (O.mem32 w.nread K.DBGMCU_IDCODE) &&& 0xFFF = 0x451) :
    (stm32f4_probe K O t w).2.1.flash = t.flash ++
      [mkFlash 0x8000000 0x20000 0x8000 0, mkFlash 0x8020000 0x20000 0x20000 4,
       mkFlash 0x8040000 0x1C0000 0x40000 5, mkFlash 0x0200000 0x20000 0x8000 0,
       mkFlash 0x0220000 0x20000 0x20000 4, mkFlash 0x0240000 0x1C0000 0x40000 5] := by
  rw [stm32f4_probe_of_ne K O t w (by rw [hid]; decide), hid]
  simp [stm32f4_probe_switch, ID_STM32F20X, ID_STM32F40X, ID_STM32F42X, ID_STM32F46X,
    ID_STM32F446, ID_STM32F401C, ID_STM32F411, ID_STM32F412, ID_STM32F401E, ID_STM32F413,
    ID_STM32F74X, ID_STM32F76X, stm32f4_add_flash, target_add_flash, target_add_ram,
    target_add_commands, mkFlash, u32, u8]

/-- The alias and the primary regions of the F7 layouts agree on the sector:
`last` is the length of the third region. -/
theorem alias_sector_agree (last a : Nat) (fa fp : stm32f4_flash)
    (hfa : fa ∈ [mkFlash 0x8000000 0x20000 0x8000 0, mkFlash 0x8020000 0x20000 0x20000 4,
       mkFlash 0x8040000 last 0x40000 5, mkFlash 0x0200000 0x20000 0x8000 0,
       mkFlash 0x0220000 0x20000 0x20000 4, mkFlash 0x0240000 last 0x40000 5])
    (hfp : fp ∈ [mkFlash 0x8000000 0x20000 0x8000 0, mkFlash 0x8020000 0x20000 0x20000 4,
       mkFlash 0x8040000 last 0x40000 5, mkFlash 0x0200000 0x20000 0x8000 0,
       mkFlash 0x0220000 0x20000 0x20000 4, mkFlash 0x0240000 last 0x40000 5])
    (hlast : last ≤ 0x1C0000)
    (halias : fa.start < 0x8000000) (ha0 : fa.start ≤ a) (ha1 : a < fa.start + fa.length)
    (hprim : 0x8000000 ≤ fp.start) (hp0 : fp.start ≤ 0x8000000 + (a - 0x0200000))
    (hp1 : 0x8000000 + (a - 0x0200000) < fp.start + fp.length) :
    eraseStartSector fa a = eraseStartSector fp (0x8000000 + (a - 0x0200000)) := by
  simp only [List.mem_cons, List.mem_singleton, List.not_mem_nil, or_false] at hfa hfp
  rcases hfa with rfl | rfl | rfl | rfl | rfl | rfl <;>
    rcases hfp with rfl | rfl | rfl | rfl | rfl | rfl <;>
    simp only [mkFlash] at halias ha0 ha1 hprim hp0 hp1 <;>
    first
    | omega
    | (simp only [eraseStartSector, mkFlash, u32, u8]; omega)

/-- Every address of an alias region of the F7 layouts is rebased into a
primary-bus region. -/
theorem alias_primary_exists (last a : Nat) (fa : stm32f4_flash)
    (hfa : fa ∈ [mkFlash 0x8000000 0x20000 0x8000 0, mkFlash 0x8020000 0x20000 0x20000 4,
       mkFlash 0x8040000 last 0x40000 5, mkFlash 0x0200000 0x20000 0x8000 0,
       mkFlash 0x0220000 0x20000 0x20000 4, mkFlash 0x0240000 last 0x40000 5])
    (halias : fa.start < 0x8000000) (ha0 : fa.start ≤ a) (ha1 : a < fa.start + fa.length) :
    ∃ fp ∈ [mkFlash 0x8000000 0x20000 0x8000 0, mkFlash 0x8020000 0x20000 0x20000 4,
       mkFlash 0x8040000 last 0x40000 5, mkFlash 0x0200000 0x20000 0x8000 0,
       mkFlash 0x0220000 0x20000 0x20000 4, mkFlash 0x0240000 last 0x40000 5],
      0x8000000 ≤ fp.start ∧ fp.start ≤ 0x8000000 + (a - 0x0200000) ∧
      0x8000000 + (a - 0x0200000) < fp.start + fp.length := by
  simp only [List.mem_cons, List.mem_singleton, List.not_mem_nil, or_false] at hfa
  rcases hfa with rfl | rfl | rfl | rfl | rfl | rfl <;>
    simp only [mkFlash] at halias ha0 ha1
  · omega
  · omega
  · omega
  · exact ⟨mkFlash 0x8000000 0x20000 0x8000 0, by simp, by simp only [mkFlash]; omega⟩
  · exact ⟨mkFlash 0x8020000 0x20000 0x20000 4, by simp, by simp only [mkFlash]; omega⟩
  · exact ⟨mkFlash 0x8040000 last 0x40000 5, by simp, by simp only [mkFlash]; omega⟩

/-- C20: on the variants that register alias-window flash regions (0x449 and
0x451), with the alias window at 0x0200000 and the primary-bus base at
0x8000000, for every address `a` inside a registered alias region `fa` the
rebased address `AXIM_BASE + (a - ITCM_BASE)` lies in a registered primary-bus
region, and for the primary-bus region `fp` that contains it the starting
sector that `stm32f4_flash_erase` computes for the rebased address through `fp`
equals the one it computes for `a` through `fa`. -/
theorem stm32f4_alias_primary_sector (K : Consts) (O : Oracle) (t : target) (w : World)
    (a : Nat) (regs : List stm32f4_flash) (fa fp : stm32f4_flash)
    (hI : K.ITCM_BASE = 0x0200000) (hA : K.AXIM_BASE = 0x8000000)
    (hid : u32 (O.mem32 w.nread K.DBGMCU_IDCODE) &&& 0xFFF = 0x449 ∨
      u32 (O.mem32 w.nread K.DBGMCU_IDCODE) &&& 0xFFF = 0x451)
    (hregs : (stm32f4_probe K O t w).2.1.flash = t.flash ++ regs)
    (hfa : fa ∈ regs) (halias : fa.start < K.AXIM_BASE)
    (ha0 : fa.start ≤ a) (ha1 : a < fa.start + fa.length)
    (hfp : fp ∈ regs) (hprim : K.AXIM_BASE ≤ fp.start)
    (hp0 : fp.start ≤ K.AXIM_BASE + (a - K.ITCM_BASE))
    (hp1 : K.AXIM_BASE + (a - K.ITCM_BASE) < fp.start + fp.length) :
    (∃ fq ∈ regs, K.AXIM_BASE ≤ fq.start ∧ fq.start ≤ K.AXIM_BASE + (a - K.ITCM_BASE) ∧
      K.AXIM_BASE + (a - K.ITCM_BASE) < fq.start + fq.length) ∧
    eraseStartSector fa a = eraseStartSector fp (K.AXIM_BASE + (a - K.ITCM_BASE)) := by
  rw [hI, hA] at *
  rcases hid with hid | hid
  · rw [stm32f4_probe_0x449_flash K O t w hid] at hregs
    have hr := List.append_cancel_left hregs
    subst hr
    exact ⟨alias_primary_exists 0xC0000 a fa hfa halias ha0 ha1,
      alias_sector_agree 0xC0000 a fa fp hfa hfp (by decide) halias ha0 ha1 hprim hp0 hp1⟩
  · rw [stm32f4_probe_0x451_flash K O t w hid] at hregs
    have hr := List.append_cancel_left hregs
    subst hr
    exact ⟨alias_primary_exists 0x1C0000 a fa hfa halias ha0 ha1,
      alias_sector_agree 0x1C0000 a fa fp hfa hfp (by decide) halias ha0 ha1 hprim hp0 hp1⟩

/-- Witness of C20: the address 0x0228000 of the second alias region of an
F74x, rebased to 0x8028000 in the second primary-bus region. -/
theorem stm32f4_alias_primary_sector_witness :
    refConsts.ITCM_BASE = 0x0200000 ∧ refConsts.AXIM_BASE = 0x8000000 ∧
    (u32 ((constOracle 0x10006449).mem32 World.init.nread refConsts.DBGMCU_IDCODE) &&& 0xFFF
        = 0x449 ∨
      u32 ((constOracle 0x10006449).mem32 World.init.nread refConsts.DBGMCU_IDCODE) &&& 0xFFF
        = 0x451) ∧
    (stm32f4_probe refConsts (constOracle 0x10006449) blankTarget World.init).2.1.flash =
      blankTarget.flash ++
        [mkFlash 0x8000000 0x20000 0x8000 0, mkFlash 0x8020000 0x20000 0x20000 4,
         mkFlash 0x8040000 0xC0000 0x40000 5, mkFlash 0x0200000 0x20000 0x8000 0,
         mkFlash 0x0220000 0x20000 0x20000 4, mkFlash 0x0240000 0xC0000 0x40000 5] ∧
    (∃ fq ∈ [mkFlash 0x8000000 0x20000 0x8000 0, mkFlash 0x8020000 0x20000 0x20000 4,
         mkFlash 0x8040000 0xC0000 0x40000 5, mkFlash 0x0200000 0x20000 0x8000 0,
         mkFlash 0x0220000 0x20000 0x20000 4, mkFlash 0x0240000 0xC0000 0x40000 5],
      refConsts.AXIM_BASE ≤ fq.start ∧
      fq.start ≤ refConsts.AXIM_BASE + (0x0228000 - refConsts.ITCM_BASE) ∧
      refConsts.AXIM_BASE + (0x0228000 - refConsts.ITCM_BASE) < fq.start + fq.length) ∧
    eraseStartSector (mkFlash 0x0220000 0x20000 0x20000 4) 0x0228000 =
      eraseStartSector (mkFlash 0x8020000 0x20000 0x20000 4)
        (refConsts.AXIM_BASE + (0x0228000 - refConsts.ITCM_BASE)) :=
  ⟨rfl, rfl, Or.inl (by decide), by decide,
    stm32f4_alias_primary_sector refConsts (constOracle 0x10006449) blankTarget World.init
      0x0228000
      [mkFlash 0x8000000 0x20000 0x8000 0, mkFlash 0x8020000 0x20000 0x20000 4,
       mkFlash 0x8040000 0xC0000 0x40000 5, mkFlash 0x0200000 0x20000 0x8000 0,
       mkFlash 0x0220000 0x20000 0x20000 4, mkFlash 0x0240000 0xC0000 0x40000 5]
      (mkFlash 0x0220000 0x20000 0x20000 4) (mkFlash 0x8020000 0x20000 0x20000 4)
      rfl rfl (Or.inl (by decide)) (by decide) (by decide) (by decide) (by decide) (by decide)
      (by decide) (by decide) (by decide) (by decide)⟩

/-! ### Mass erase -/

/-- A mass-erase poll whose first read has the busy bit clear ends there. -/
theorem massErasePoll_ready (K : Consts) (O : Oracle) (w : World) (spin fuel : Nat)
    (h : u32 (O.mem32 w.nread K.FLASH_SR) &&& K.FLASH_SR_BSY = 0) :
    massErasePoll K O (fuel + 1) w spin = some (false, (target_mem_read32 O w K.FLASH_SR).2) := by
  simp [massErasePoll, target_mem_read32, h]

/-- A mass-erase poll whose first read is busy and whose error query reports an
error prints the spinner and a line feed and returns. -/
theorem massErasePoll_abort (K : Consts) (O : Oracle) (w : World) (spin fuel : Nat)
    (h : u32 (O.mem32 w.nread K.FLASH_SR) &&& K.FLASH_SR_BSY ≠ 0)
    (he : O.error w.nerr = true) :
    massErasePoll K O (fuel + 1) w spin =
      some (true, tc_printf (target_check_error O (tc_printf (target_mem_read32 O w K.FLASH_SR).2
        (String.mk [Char.ofNat 8, spinner.getD (spin % 4) (Char.ofNat 0)]))).2 newline) := by
  simp [massErasePoll, target_mem_read32, target_check_error, tc_printf, h, he]

/-- A mass-erase poll whose first read is busy and whose error query is clean
prints the spinner and goes round. -/
theorem massErasePoll_spin (K : Consts) (O : Oracle) (w : World) (spin fuel : Nat)
    (h : u32 (O.mem32 w.nread K.FLASH_SR) &&& K.FLASH_SR_BSY ≠ 0)
    (he : O.error w.nerr = false) :
    massErasePoll K O (fuel + 1) w spin =
      massErasePoll K O fuel (target_check_error O (tc_printf (target_mem_read32 O w K.FLASH_SR).2
        (String.mk [Char.ofNat 8, spinner.getD (spin % 4) (Char.ofNat 0)]))).2 (spin + 1) := by
  simp [massErasePoll, target_mem_read32, target_check_error, tc_printf, h, he]

/-- The mass-erase poll returns as soon as the fuel exceeds the distance to the
next read with busy clear or to the next reported error; it writes no register,
and it is left through the `return` exactly when an error was reported. -/
theorem massErasePoll_spec (K : Consts) (O : Oracle) : ∀ (d : Nat) (w : World) (spin : Nat),
    ((∃ j, w.nread ≤ j ∧ j ≤ w.nread + d ∧ u32 (O.mem32 j K.FLASH_SR) &&& K.FLASH_SR_BSY = 0) ∨
      (∃ j, w.nerr ≤ j ∧ j ≤ w.nerr + d ∧ O.error j = true)) →
    ∃ b w1 evs, (∀ fuel, d + 1 ≤ fuel → massErasePoll K O fuel w spin = some (b, w1)) ∧
      w1.trace = w.trace ++ evs ∧ writesOf evs = [] ∧
      (b = true → Event.checkError true ∈ evs) ∧
      (b = false → Event.checkError true ∉ evs) := by
  have hready : ∀ (d : Nat) (w : World) (spin : Nat),
      u32 (O.mem32 w.nread K.FLASH_SR) &&& K.FLASH_SR_BSY = 0 →
      ∃ b w1 evs, (∀ fuel, d + 1 ≤ fuel → massErasePoll K O fuel w spin = some (b, w1)) ∧
        w1.trace = w.trace ++ evs ∧ writesOf evs = [] ∧
        (b = true → Event.checkError true ∈ evs) ∧
        (b = false → Event.checkError true ∉ evs) := by
    intro d w spin hb
    refine ⟨false, (target_mem_read32 O w K.FLASH_SR).2,
      [Event.read32 K.FLASH_SR (u32 (O.mem32 w.nread K.FLASH_SR))], ?_, rfl, rfl,
      by simp, by simp⟩
    intro fuel hf
    obtain ⟨f, rfl⟩ : ∃ f, fuel = f + 1 := ⟨fuel - 1, by omega⟩
    exact massErasePoll_ready K O w spin f hb
  have habort : ∀ (d : Nat) (w : World) (spin : Nat),
      u32 (O.mem32 w.nread K.FLASH_SR) &&& K.FLASH_SR_BSY ≠ 0 → O.error w.nerr = true →
      ∃ b w1 evs, (∀ fuel, d + 1 ≤ fuel → massErasePoll K O fuel w spin = some (b, w1)) ∧
        w1.trace = w.trace ++ evs ∧ writesOf evs = [] ∧
        (b = true → Event.checkError true ∈ evs) ∧
        (b = false → Event.checkError true ∉ evs) := by
    intro d w spin hb he
    refine ⟨true, tc_printf (target_check_error O (tc_printf (target_mem_read32 O w K.FLASH_SR).2
        (String.mk [Char.ofNat 8, spinner.getD (spin % 4) (Char.ofNat 0)]))).2 newline,
      [Event.read32 K.FLASH_SR (u32 (O.mem32 w.nread K.FLASH_SR)),
        Event.printf (String.mk [Char.ofNat 8, spinner.getD (spin % 4) (Char.ofNat 0)]),
        Event.checkError true, Event.printf newline], ?_, ?_, rfl, by simp, by simp⟩
    · intro fuel hf
      obtain ⟨f, rfl⟩ : ∃ f, fuel = f + 1 := ⟨fuel - 1, by omega⟩
      exact massErasePoll_abort K O w spin f hb he
    · simp [target_check_error, target_mem_read32, tc_printf, he]
  intro d
  induction d with
  | zero =>
    intro w spin h
    by_cases hb : u32 (O.mem32 w.nread K.FLASH_SR) &&& K.FLASH_SR_BSY = 0
    · exact hready 0 w spin hb
    · have he : O.error w.nerr = true := by
        rcases h with ⟨j, h1, h2, h3⟩ | ⟨j, h1, h2, h3⟩
        · have : j = w.nread := by omega
          subst this; exact absurd h3 hb
        · have : j = w.nerr := by omega
          subst this; exact h3
      exact habort 0 w spin hb he
  | succ d ih =>
    intro w spin h
    by_cases hb : u32 (O.mem32 w.nread K.FLASH_SR) &&& K.FLASH_SR_BSY = 0
    · exact hready (d + 1) w spin hb
    · by_cases he : O.error w.nerr = true
      · exact habort (d + 1) w spin hb he
      · have he2 : O.error w.nerr = false := by simpa using he
        obtain ⟨b, w1, evs, hrun, htr, hwr, hT, hF⟩ :=
          ih (target_check_error O (tc_printf (target_mem_read32 O w K.FLASH_SR).2
              (String.mk [Char.ofNat 8, spinner.getD (spin % 4) (Char.ofNat 0)]))).2
            (spin + 1) (by
            rcases h with ⟨j, h1, h2, h3⟩ | ⟨j, h1, h2, h3⟩
            · left
              have : j ≠ w.nread := by rintro rfl; exact hb h3
              exact ⟨j, by simp [target_check_error, target_mem_read32, tc_printf]; omega,
                by simp [target_check_error, target_mem_read32, tc_printf]; omega, h3⟩
            · right
              have : j ≠ w.nerr := by rintro rfl; exact he h3
              exact ⟨j, by simp [target_check_error, target_mem_read32, tc_printf]; omega,
                by simp [target_check_error, target_mem_read32, tc_printf]; omega, h3⟩)
        refine ⟨b, w1, [Event.read32 K.FLASH_SR (u32 (O.mem32 w.nread K.FLASH_SR)),
          Event.printf (String.mk [Char.ofNat 8, spinner.getD (spin % 4) (Char.ofNat 0)]),
          Event.checkError false] ++ evs, ?_, ?_, ?_, ?_, ?_⟩
        · intro fuel hf
          obtain ⟨f, rfl⟩ : ∃ f, fuel = f + 1 := ⟨fuel - 1, by omega⟩
          rw [massErasePoll_spin K O w spin f hb he2]
          exact hrun f (by omega)
        · rw [htr]
          simp [target_check_error, target_mem_read32, tc_printf, he2]
        · rw [writesOf_append, hwr]; rfl
        · intro hb1; simp [hT hb1]
        · intro hb1; simpa using hF hb1

/-- The mass-erase poll returns when the device either gets ready again and
again or keeps reporting errors. -/
theorem massErasePoll_total (K : Consts) (O : Oracle) (H : Ready K O ∨ ErrorsRecur O)
    (w : World) (spin : Nat) :
    ∃ N b w1 evs, (∀ fuel, N ≤ fuel → massErasePoll K O fuel w spin = some (b, w1)) ∧
      w1.trace = w.trace ++ evs ∧ writesOf evs = [] ∧
      (b = true → Event.checkError true ∈ evs) ∧
      (b = false → Event.checkError true ∉ evs) := by
  rcases H with H | H
  · obtain ⟨j, hj, hb⟩ := H w.nread
    obtain ⟨b, w1, evs, h⟩ :=
      massErasePoll_spec K O (j - w.nread) w spin (Or.inl ⟨j, hj, by omega, hb⟩)
    exact ⟨_, b, w1, evs, h⟩
  · obtain ⟨j, hj, hb⟩ := H w.nerr
    obtain ⟨b, w1, evs, h⟩ :=
      massErasePoll_spec K O (j - w.nerr) w spin (Or.inr ⟨j, hj, by omega, hb⟩)
    exact ⟨_, b, w1, evs, h⟩

/-- The mass erase: banner, unlock, the two commands, the poll, then the status check. -/
theorem stm32f4_cmd_erase_mass_eq (K : Consts) (O : Oracle) (fuel : Nat) (w : World) :
    stm32f4_cmd_erase_mass K O fuel w =
      match massErasePoll K O fuel (target_mem_write32 (target_mem_write32
          (stm32f4_flash_unlock K O (tc_printf w "Erasing flash... This may take a few seconds.  "))
          K.FLASH_CR K.FLASH_CR_MER) K.FLASH_CR (K.FLASH_CR_STRT ||| K.FLASH_CR_MER)) 0 with
      | none => none
      | some (true, w4) => some (false, w4)
      | some (false, w4) =>
        some (if u16 (u32 (O.mem32 w4.nread K.FLASH_SR)) &&& K.SR_ERROR_MASK ≠ 0 ∨
            ¬ (u16 (u32 (O.mem32 w4.nread K.FLASH_SR)) &&& K.SR_EOP ≠ 0) then false else true,
          (target_mem_read32 O (tc_printf w4 newline) K.FLASH_SR).2) := by
  unfold stm32f4_cmd_erase_mass
  simp only
  split
  · rfl
  · rfl
  · simp only [target_mem_read32, tc_printf]
    split <;> rfl

/-- C17: `stm32f4_cmd_erase_mass` returns; its writes to `FLASH_CR` are exactly
`FLASH_CR_MER` and then `FLASH_CR_STRT | FLASH_CR_MER`; and either a connection
error was reported during the poll and it returns false, or no connection error
was reported, its last access is the read of `FLASH_SR` after the poll loop,
and it returns true exactly when that value has `SR_EOP` set and no bit of
`SR_ERROR_MASK` set. -/
theorem stm32f4_cmd_erase_mass_result (K : Consts) (O : Oracle) (w : World)
    (hkey : K.FLASH_KEYR ≠ K.FLASH_CR) (hmask : K.SR_ERROR_MASK < 2 ^ 16)
    (heop : K.SR_EOP < 2 ^ 16) (H : Ready K O ∨ ErrorsRecur O) :
    ∃ N r w1 evs,
      (∀ fuel, N ≤ fuel → stm32f4_cmd_erase_mass K O fuel w = some (r, w1)) ∧
      w1.trace = w.trace ++ evs ∧
      (writesOf evs).filter (fun p => decide (p.1 = K.FLASH_CR)) =
        [(K.FLASH_CR, K.FLASH_CR_MER), (K.FLASH_CR, K.FLASH_CR_STRT ||| K.FLASH_CR_MER)] ∧
      ((Event.checkError true ∈ evs ∧ r = false) ∨
       (Event.checkError true ∉ evs ∧ ∃ v, evs.getLast? = some (Event.read32 K.FLASH_SR v) ∧
          (r = true ↔ v &&& K.SR_EOP ≠ 0 ∧ v &&& K.SR_ERROR_MASK = 0))) := by
  obtain ⟨uevs, hu, hune, -, hufilter⟩ := stm32f4_flash_unlock_trace K O
    (tc_printf w "Erasing flash... This may take a few seconds.  ")
  obtain ⟨N, b, w4, pevs, hrun, htr, hwr, hT, hF⟩ := massErasePoll_total K O H
    (target_mem_write32 (target_mem_write32 (stm32f4_flash_unlock K O
      (tc_printf w "Erasing flash... This may take a few seconds.  ")) K.FLASH_CR
      K.FLASH_CR_MER) K.FLASH_CR (K.FLASH_CR_STRT ||| K.FLASH_CR_MER)) 0
  have htr4 : w4.trace = w.trace ++
      ([Event.printf "Erasing flash... This may take a few seconds.  "] ++ uevs ++
        [Event.write32 K.FLASH_CR K.FLASH_CR_MER,
          Event.write32 K.FLASH_CR (K.FLASH_CR_STRT ||| K.FLASH_CR_MER)] ++ pevs) := by
    rw [htr]
    simp only [target_mem_write32]
    rw [hu]
    simp [tc_printf]
  have hfilt : ∀ tail : List Event, writesOf tail = [] →
      (writesOf ([Event.printf "Erasing flash... This may take a few seconds.  "] ++ uevs ++
        [Event.write32 K.FLASH_CR K.FLASH_CR_MER,
          Event.write32 K.FLASH_CR (K.FLASH_CR_STRT ||| K.FLASH_CR_MER)] ++ pevs ++ tail)).filter
        (fun p => decide (p.1 = K.FLASH_CR)) =
      [(K.FLASH_CR, K.FLASH_CR_MER), (K.FLASH_CR, K.FLASH_CR_STRT ||| K.FLASH_CR_MER)] := by
    intro tail ht
    simp only [writesOf_append, hwr, ht, List.filter_append, hufilter hkey]
    simp [writesOf]
  cases b with
  | true =>
    refine ⟨N, false, w4, _, ?_, htr4, ?_, Or.inl ⟨?_, rfl⟩⟩
    · intro fuel hf
      rw [stm32f4_cmd_erase_mass_eq, hrun fuel hf]
    · simpa using hfilt [] rfl
    · simp [hT rfl]
  | false =>
    refine ⟨N,
      if u16 (u32 (O.mem32 w4.nread K.FLASH_SR)) &&& K.SR_ERROR_MASK ≠ 0 ∨
        ¬ (u16 (u32 (O.mem32 w4.nread K.FLASH_SR)) &&& K.SR_EOP ≠ 0) then false else true,
      (target_mem_read32 O (tc_printf w4 newline) K.FLASH_SR).2,
      ([Event.printf "Erasing flash... This may take a few seconds.  "] ++ uevs ++
        [Event.write32 K.FLASH_CR K.FLASH_CR_MER,
          Event.write32 K.FLASH_CR (K.FLASH_CR_STRT ||| K.FLASH_CR_MER)] ++ pevs) ++
        [Event.printf newline, Event.read32 K.FLASH_SR (u32 (O.mem32 w4.nread K.FLASH_SR))],
      ?_, ?_, ?_, Or.inr ⟨?_, u32 (O.mem32 w4.nread K.FLASH_SR), ?_, ?_⟩⟩
    · intro fuel hf
      rw [stm32f4_cmd_erase_mass_eq, hrun fuel hf]
    · simp [target_mem_read32, tc_printf, htr4]
    · exact hfilt _ rfl
    · have := hF rfl
      simp [hune, this]
    · rw [List.getLast?_append]
      rfl
    · rw [u16_land_mask _ _ hmask, u16_land_mask _ _ heop]
      by_cases h1 : u32 (O.mem32 w4.nread K.FLASH_SR) &&& K.SR_ERROR_MASK = 0 <;>
        by_cases h2 : u32 (O.mem32 w4.nread K.FLASH_SR) &&& K.SR_EOP = 0 <;>
        simp [h1, h2]

/-- Witness of C17: a mass erase on a device that is busy at two reads out of
three. -/
theorem stm32f4_cmd_erase_mass_result_witness :
    refConsts.FLASH_KEYR ≠ refConsts.FLASH_CR ∧ refConsts.SR_ERROR_MASK < 2 ^ 16 ∧
    refConsts.SR_EOP < 2 ^ 16 ∧ (Ready refConsts pulseOracle ∨ ErrorsRecur pulseOracle) ∧
    ∃ N r w1 evs,
      (∀ fuel, N ≤ fuel → stm32f4_cmd_erase_mass refConsts pulseOracle fuel World.init
        = some (r, w1)) ∧
      w1.trace = World.init.trace ++ evs ∧
      (writesOf evs).filter (fun p => decide (p.1 = refConsts.FLASH_CR)) =
        [(refConsts.FLASH_CR, refConsts.FLASH_CR_MER),
          (refConsts.FLASH_CR, refConsts.FLASH_CR_STRT ||| refConsts.FLASH_CR_MER)] ∧
      ((Event.checkError true ∈ evs ∧ r = false) ∨
       (Event.checkError true ∉ evs ∧
        ∃ v, evs.getLast? = some (Event.read32 refConsts.FLASH_SR v) ∧
          (r = true ↔ v &&& refConsts.SR_EOP ≠ 0 ∧ v &&& refConsts.SR_ERROR_MASK = 0))) :=
  ⟨by decide, by decide, by decide, Or.inl pulseOracle_ready,
    stm32f4_cmd_erase_mass_result refConsts pulseOracle World.init (by decide) (by decide)
      (by decide) (Or.inl pulseOracle_ready)⟩

/-! ### Option report and option write command -/

/-- The high half of a composed word fits 32 bits. -/
theorem u32_high_half (x : Nat) : u32 ((x &&& 0xffff) <<< 16) = (x &&& 0xffff) <<< 16 := by
  have h : x &&& 0xffff ≤ 0xffff := Nat.and_le_right
  rw [Nat.shiftLeft_eq]
  exact Nat.mod_eq_of_lt (by omega)

/-- The report with one word: two reads, high half first. -/
theorem stm32f4_cmd_option_report_one (O : Oracle) (t : target) (start : Nat)
    (val : OptionWords) (w : World) :
    (stm32f4_cmd_option_report O t start 1 val w).trace = w.trace ++
      [Event.read32 (start + 8) (readAt O w 0 (start + 8)),
       Event.read32 start (readAt O w 1 start),
       Event.printf ("OPTCR: 0x" ++ fmt08X (optcr_mask t
         ⟨halves (readAt O w 0 (start + 8)) (readAt O w 1 start), val.v1, val.v2⟩).2.v0 ++ " "),
       Event.printf newline] := by
  simp [stm32f4_cmd_option_report, target_mem_read32, tc_printf, u32_high_half, halves, readAt]

/-- The report with two words on the base layout (F42x, F46x): the second word
is the low 16 bits of a single read at `start + 8 - 0x10000`. -/
theorem stm32f4_cmd_option_report_f4 (O : Oracle) (t : target) (val : OptionWords) (w : World) :
    (stm32f4_cmd_option_report O t 0x1FFFC000 2 val w).trace = w.trace ++
      [Event.read32 0x1FFFC008 (readAt O w 0 0x1FFFC008),
       Event.read32 0x1FFFC000 (readAt O w 1 0x1FFFC000),
       Event.read32 0x1FFEC008 (readAt O w 2 0x1FFEC008),
       Event.printf ("OPTCR: 0x" ++ fmt08X (optcr_mask t
         ⟨halves (readAt O w 0 0x1FFFC008) (readAt O w 1 0x1FFFC000),
          readAt O w 2 0x1FFEC008 &&& 0xFFFF, val.v2⟩).2.v0 ++ " "),
       Event.printf ("OPTCR1: 0x" ++ fmt08X (optcr_mask t
         ⟨halves (readAt O w 0 0x1FFFC008) (readAt O w 1 0x1FFFC000),
          readAt O w 2 0x1FFEC008 &&& 0xFFFF, val.v2⟩).2.v1 ++ " "),
       Event.printf newline] := by
  have haddr : u32 4831756296 = 0x1FFEC008 := by decide
  simp [stm32f4_cmd_option_report, target_mem_read32, tc_printf, u32_high_half, halves, readAt,
    haddr]

/-- The report with two words on the extended layout (F74x, F76x). -/
theorem stm32f4_cmd_option_report_two (O : Oracle) (t : target) (val : OptionWords)
    (w : World) :
    (stm32f4_cmd_option_report O t 0x1FFF0000 2 val w).trace = w.trace ++
      [Event.read32 0x1FFF0008 (readAt O w 0 0x1FFF0008),
       Event.read32 0x1FFF0000 (readAt O w 1 0x1FFF0000),
       Event.read32 0x1FFF0018 (readAt O w 2 0x1FFF0018),
       Event.read32 0x1FFF0010 (readAt O w 3 0x1FFF0010),
       Event.printf ("OPTCR: 0x" ++ fmt08X (optcr_mask t
         ⟨halves (readAt O w 0 0x1FFF0008) (readAt O w 1 0x1FFF0000),
          halves (readAt O w 2 0x1FFF0018) (readAt O w 3 0x1FFF0010), val.v2⟩).2.v0 ++ " "),
       Event.printf ("OPTCR1: 0x" ++ fmt08X (optcr_mask t
         ⟨halves (readAt O w 0 0x1FFF0008) (readAt O w 1 0x1FFF0000),
          halves (readAt O w 2 0x1FFF0018) (readAt O w 3 0x1FFF0010), val.v2⟩).2.v1 ++ " "),
       Event.printf newline] := by
  simp [stm32f4_cmd_option_report, target_mem_read32, tc_printf, u32_high_half, halves, readAt]

/-- The report with three words (F72x). -/
theorem stm32f4_cmd_option_report_three (O : Oracle) (t : target) (val : OptionWords)
    (w : World) :
    (stm32f4_cmd_option_report O t 0x1FFF0000 3 val w).trace = w.trace ++
      [Event.read32 0x1FFF0008 (readAt O w 0 0x1FFF0008),
       Event.read32 0x1FFF0000 (readAt O w 1 0x1FFF0000),
       Event.read32 0x1FFF0018 (readAt O w 2 0x1FFF0018),
       Event.read32 0x1FFF0010 (readAt O w 3 0x1FFF0010),
       Event.read32 0x1FFF0028 (readAt O w 4 0x1FFF0028),
       Event.read32 0x1FFF0020 (readAt O w 5 0x1FFF0020),
       Event.printf ("OPTCR: 0x" ++ fmt08X (optcr_mask t
         ⟨halves (readAt O w 0 0x1FFF0008) (readAt O w 1 0x1FFF0000),
          halves (readAt O w 2 0x1FFF0018) (readAt O w 3 0x1FFF0010),
          halves (readAt O w 4 0x1FFF0028) (readAt O w 5 0x1FFF0020)⟩).2.v0 ++ " "),
       Event.printf ("OPTCR1: 0x" ++ fmt08X (optcr_mask t
         ⟨halves (readAt O w 0 0x1FFF0008) (readAt O w 1 0x1FFF0000),
          halves (readAt O w 2 0x1FFF0018) (readAt O w 3 0x1FFF0010),
          halves (readAt O w 4 0x1FFF0028) (readAt O w 5 0x1FFF0020)⟩).2.v1 ++ " "),
       Event.printf ("OPTCR2: 0x" ++ fmt08X (optcr_mask t
         ⟨halves (readAt O w 0 0x1FFF0008) (readAt O w 1 0x1FFF0000),
          halves (readAt O w 2 0x1FFF0018) (readAt O w 3 0x1FFF0010),
          halves (readAt O w 4 0x1FFF0028) (readAt O w 5 0x1FFF0020)⟩).2.v2),
       Event.printf newline] := by
  simp [stm32f4_cmd_option_report, target_mem_read32, tc_printf, u32_high_half, halves, readAt]

/-- The low half of a read has no bit among the bits 27:16 that `optcr_mask`
keeps of the second option word on F42x and F46x. -/
theorem low_half_masked (r : Nat) : (r &&& 0xFFFF) &&& 0x0fff0000 = 0 := by
  rw [Nat.and_assoc]
  have h : (0xFFFF : Nat) &&& 0x0fff0000 = 0 := by decide
  rw [h, Nat.and_zero]

/-- On F42x and F46x the second word that the report hands to `optcr_mask`, the
low 16 bits of one read, comes out as 0 whatever was read. -/
theorem optcr_mask_f42x_low_half (t : target) (a r c : Nat)
    (h : t.idcode = 0x419 ∨ t.idcode = 0x434) :
    (optcr_mask t ⟨a, r &&& 0xFFFF, c⟩).2.v1 = 0 := by
  rcases h with h | h <;>
    simp [optcr_mask, h, ID_STM32F20X, ID_STM32F40X, ID_STM32F42X, ID_STM32F46X,
      low_half_masked]

/-- C11: `option` with no sub-action on a device whose option-byte locations all
read 0xFFFFFFFF.  On an F42x the command performs three reads, a single one for
the second word, of which it keeps bits 15:0, and reports OPTCR1 as 0x00000000;
`optcr_mask` applied to the word composed of the low 16 bits of two reads, as
the claim states, has the second word 0x0FFF0000.  On an F74x the same command
composes the second word of two reads, high half first, and reports it. -/
theorem stm32f4_cmd_option_f42x_second_word :
    stm32f4_cmd_option refConsts (constOracle 0xFFFFFFFF) (fun _ => 0) 0 f42xTarget ["option"]
        ⟨0, 0, 0⟩ ⟨0, 0, 0⟩ World.init =
      CmdResult.done (true, ⟨3, 0, 0,
        [Event.printf ("usage: monitor option erase" ++ newline),
         Event.printf "usage: monitor option write <OPTCR>",
         Event.printf " <OPTCR1>",
         Event.printf newline,
         Event.read32 0x1FFFC008 0xFFFFFFFF,
         Event.read32 0x1FFFC000 0xFFFFFFFF,
         Event.read32 0x1FFEC008 0xFFFFFFFF,
         Event.printf "OPTCR: 0xCFFFFFFF ",
         Event.printf "OPTCR1: 0x00000000 ",
         Event.printf newline]⟩) ∧
    (optcr_mask f42xTarget
      ⟨halves 0xFFFFFFFF 0xFFFFFFFF, halves 0xFFFFFFFF 0xFFFFFFFF, 0⟩).2.v1 = 0x0FFF0000 ∧
    stm32f4_cmd_option refConsts (constOracle 0xFFFFFFFF) (fun _ => 0) 0
        { blankTarget with idcode := ID_STM32F74X } ["option"] ⟨0, 0, 0⟩ ⟨0, 0, 0⟩ World.init =
      CmdResult.done (true, ⟨4, 0, 0,
        [Event.printf ("usage: monitor option erase" ++ newline),
         Event.printf "usage: monitor option write <OPTCR>",
         Event.printf " <OPTCR1>",
         Event.printf newline,
         Event.read32 0x1FFF0008 0xFFFFFFFF,
         Event.read32 0x1FFF0000 0xFFFFFFFF,
         Event.read32 0x1FFF0018 0xFFFFFFFF,
         Event.read32 0x1FFF0010 0xFFFFFFFF,
         Event.printf "OPTCR: 0xC0FFFFFF ",
         Event.printf "OPTCR1: 0xFFFFFFFF ",
         Event.printf newline]⟩) := by
  refine ⟨by decide, by decide, by decide⟩

/-- C12: `option write` with one or two integer arguments.  With one argument
(`argc` = 3) the command indexes `argv[3]`, with two arguments (`argc` = 4) it
indexes `argv[4]`: in both cases the index `argc` itself, outside the argument
vector, before any word is masked or written. -/
theorem stm32f4_cmd_option_write_bad_index :
    stm32f4_cmd_option refConsts (constOracle 0) (fun _ => 0x0FFFAAED) 8 f42xTarget
        ["option", "write", "0x0FFFAAED"] ⟨0, 0, 0⟩ ⟨0, 0, 0⟩ World.init =
      CmdResult.badIndex 3 ∧
    stm32f4_cmd_option refConsts (constOracle 0) (fun _ => 0x0FFFAAED) 8 f42xTarget
        ["option", "write", "0x0FFFAAED", "0x0FFF0000"] ⟨0, 0, 0⟩ ⟨0, 0, 0⟩ World.init =
      CmdResult.badIndex 4 := by
  constructor <;> decide

end STM32F4
